import Mathlib

/-!
# Verification of the drilling SSH-tunnel manager

Shallow embedding of the core of the `drilling` repository (Go):

* the host-secret crypto box (`internal/service/host_service.go`):
  AES-256-CFB with URL-safe base64 at rest, key derivation by pad/truncate;
* the SOCKS5 server (`internal/socks5/socks5.go`);
* the Clash YAML exporter (`internal/service/clash_export_service.go`),
  including the `sanitizeName` helper;
* the tunnel lifecycle engine (`internal/service/tunnel_service.go`):
  create / update / start / stop and the in-memory registry of running
  tunnels.

Pure functions are translated directly; stateful methods become functions
on an explicit `EngineState`; the network and the SSH library are modelled
as oracles passed in explicitly.  Machine integers are `Nat` (ports and
byte values are non-negative and small in all code paths the theorems
touch).
-/

namespace Drilling

/-- Equality of `Except` results is decidable (needed to evaluate the
engine's fallible operations on concrete inputs). -/
instance {α β : Type} [DecidableEq α] [DecidableEq β] :
    DecidableEq (Except α β) := fun x y =>
  match x, y with
  | .error a, .error b => decidable_of_iff (a = b) (by simp)
  | .ok a, .ok b => decidable_of_iff (a = b) (by simp)
  | .error _, .ok _ => isFalse (by simp)
  | .ok _, .error _ => isFalse (by simp)

/-! ## sanitizeName (clash_export_service.go)

`sanitizeName` maps each of ` _.:/\|*?` to `-` and drops each of `"'<>`
(a `strings.NewReplacer` over single-character patterns acts as a
per-character map), then repeatedly replaces `--` by `-` until no `--`
remains, trims `-` from both ends, and falls back to `"proxy"` for an
empty result. -/

/-- Characters the `strings.NewReplacer` maps to `-`. -/
def dashChar (c : Char) : Bool :=
  c == ' ' || c == '_' || c == '.' || c == ':' || c == '/' || c == '\\' ||
  c == '|' || c == '*' || c == '?'

/-- Characters the `strings.NewReplacer` maps to the empty string. -/
def dropChar (c : Char) : Bool :=
  c == '"' || c == '\'' || c == '<' || c == '>'

/-- Per-character action of the replacer in `sanitizeName`. -/
def replaceChar (c : Char) : List Char :=
  if dashChar c then ['-'] else if dropChar c then [] else [c]

/-- A character `sanitizeName` never leaves in its output: one of
space `_` `.` `:` `/` `\` `|` `*` `?` `"` `'` `<` `>`. -/
def forbiddenChar (c : Char) : Bool := dashChar c || dropChar c

/-- One pass of Go `strings.ReplaceAll(result, "--", "-")`: non-overlapping
left-to-right replacement of `--` by `-`. -/
def collapseStep : List Char → List Char
  | [] => []
  | [c] => [c]
  | a :: b :: rest =>
      if a = '-' ∧ b = '-' then '-' :: collapseStep rest
      else a :: collapseStep (b :: rest)

/-- Go `strings.Contains(result, "--")`. -/
def hasDoubleDash : List Char → Bool
  | [] => false
  | [_] => false
  | a :: b :: rest =>
      if a = '-' ∧ b = '-' then true else hasDoubleDash (b :: rest)

/-- The `for strings.Contains(result, "--")` loop of `sanitizeName`, with an
explicit iteration bound.  Each iteration of the Go loop strictly shrinks the
string, so `l.length` iterations always reach the loop's exit condition
(proved in `hasDoubleDash_collapseIter`). -/
def collapseIter : Nat → List Char → List Char
  | 0, l => l
  | fuel + 1, l =>
      if hasDoubleDash l then collapseIter fuel (collapseStep l) else l

/-- The collapse loop of `sanitizeName`, run to completion. -/
def collapseLoop (l : List Char) : List Char := collapseIter l.length l

/-- Go `strings.Trim(result, "-")`: remove leading and trailing `-`. -/
def trimDashes (l : List Char) : List Char :=
  List.rdropWhile (fun c => c == '-') (List.dropWhile (fun c => c == '-') l)

/-- `sanitizeName` from `clash_export_service.go`. -/
def sanitizeName (name : List Char) : List Char :=
  if (trimDashes (collapseLoop ((name.map replaceChar).flatten))).isEmpty
  then "proxy".toList
  else trimDashes (collapseLoop ((name.map replaceChar).flatten))

/-! ## URL-safe base64 (Go `encoding/base64`, `URLEncoding`)

`host_service.go` stores secrets as `base64.URLEncoding.EncodeToString` of
`IV ‖ ciphertext` and decodes with `base64.URLEncoding.DecodeString`.
Bytes are `Nat` values `< 256`; sextet arithmetic uses `/` and `%` by
powers of two, matching Go's shifts and masks. -/

/-- The URL-safe base64 alphabet (`encodeURL` in Go's `encoding/base64`). -/
def b64Alphabet : List Char :=
  "ABCDEFGHIJKLMNOPQRSTUVWXYZabcdefghijklmnopqrstuvwxyz0123456789-_".toList

/-- Sextet value to alphabet character. -/
def sextetToChar (n : Nat) : Char := b64Alphabet.getD n 'A'

/-- Alphabet character back to its sextet value; `none` off-alphabet
(Go's decoder signals `CorruptInputError`, whose message is
`illegal base64 data at input byte …`). -/
def charToSextet (c : Char) : Option Nat :=
  b64Alphabet.findIdx? (fun d => d == c)

/-- `base64.URLEncoding.EncodeToString`: 3 bytes become 4 characters; a
final 1- or 2-byte group is padded with `=`. -/
def b64EncodeBytes : List Nat → List Char
  | b1 :: b2 :: b3 :: rest =>
      sextetToChar (b1 / 4) ::
      sextetToChar (b1 % 4 * 16 + b2 / 16) ::
      sextetToChar (b2 % 16 * 4 + b3 / 64) ::
      sextetToChar (b3 % 64) ::
      b64EncodeBytes rest
  | [b1, b2] =>
      [sextetToChar (b1 / 4), sextetToChar (b1 % 4 * 16 + b2 / 16),
       sextetToChar (b2 % 16 * 4), '=']
  | [b1] =>
      [sextetToChar (b1 / 4), sextetToChar (b1 % 4 * 16), '=', '=']
  | [] => []

/-- Decode one 4-character quantum at a time.  A `=`-padded quantum is only
legal as the final one; any off-alphabet character (including a misplaced
`=`) or a trailing group of fewer than 4 characters is rejected, as in Go's
strict decoder. -/
def b64DecodeQuanta : List Char → Option (List Nat)
  | [] => some []
  | a :: b :: c :: d :: rest =>
      if c = '=' ∧ d = '=' ∧ rest = [] then do
        let sa ← charToSextet a
        let sb ← charToSextet b
        pure [sa * 4 + sb / 16]
      else if d = '=' ∧ rest = [] then do
        let sa ← charToSextet a
        let sb ← charToSextet b
        let sc ← charToSextet c
        pure [sa * 4 + sb / 16, sb % 16 * 16 + sc / 4]
      else do
        let sa ← charToSextet a
        let sb ← charToSextet b
        let sc ← charToSextet c
        let sd ← charToSextet d
        let tail ← b64DecodeQuanta rest
        pure ((sa * 4 + sb / 16) :: (sb % 16 * 16 + sc / 4) :: (sc % 4 * 64 + sd) :: tail)
  | _ => none

/-- `base64.URLEncoding.DecodeString`: Go's decoder skips `\r` and `\n`
before decoding quanta. -/
def b64DecodeChars (cs : List Char) : Option (List Nat) :=
  b64DecodeQuanta (cs.filter (fun c => !(c == '\r' || c == '\n')))

/-! ## AES-256-CFB crypto box (host_service.go)

`hostService.encrypt` draws a random 16-byte IV, CFB-encrypts, and emits
`URL-safe base64(IV ‖ ciphertext)`; `decrypt` reverses this.  The AES block
permutation itself lives in Go's standard library, outside this repository;
it enters the embedding as an opaque block function `E` (built from the
derived key), constrained to map any block to 16 bytes.  CFB mode
(`cipher.NewCFBEncrypter` / `NewCFBDecrypter`) XORs each 16-byte group of
input with `E` of the previous ciphertext group, seeded with the IV; a
short final group uses a prefix of the keystream. -/

/-- Key derivation in `NewHostService`: zero-pad the configured key's bytes
on the right to 32 bytes, or truncate to 32 bytes. -/
def deriveKey (k : List Nat) : List Nat :=
  if k.length < 32 then k ++ List.replicate (32 - k.length) 0
  else k.take 32

/-- CFB encryption keystream chaining: each ciphertext group is
`plaintext group XOR E(previous ciphertext group)`, seeded with the IV
in `prev`. -/
def cfbEncryptBytes (E : List Nat → List Nat) (prev p : List Nat) : List Nat :=
  if h : p = [] then []
  else
    (List.zipWith (fun a b => a ^^^ b) (p.take 16) (E prev)) ++
      cfbEncryptBytes E (List.zipWith (fun a b => a ^^^ b) (p.take 16) (E prev))
        (p.drop 16)
termination_by p.length
decreasing_by
  have : 0 < p.length := List.length_pos.mpr h
  simp
  omega

/-- CFB decryption: each plaintext group is
`ciphertext group XOR E(previous ciphertext group)`. -/
def cfbDecryptBytes (E : List Nat → List Nat) (prev c : List Nat) : List Nat :=
  if h : c = [] then []
  else
    (List.zipWith (fun a b => a ^^^ b) (c.take 16) (E prev)) ++
      cfbDecryptBytes E (c.take 16) (c.drop 16)
termination_by c.length
decreasing_by
  have : 0 < c.length := List.length_pos.mpr h
  simp
  omega

/-- `hostService.encrypt` with the IV made explicit (the code samples it
from `crypto/rand`): base64 of `IV ‖ CFB ciphertext`. -/
def hostEncrypt (E : List Nat → List Nat) (iv p : List Nat) : List Char :=
  b64EncodeBytes (iv ++ cfbEncryptBytes E iv p)

/-- Error discrimination of `hostService.decrypt`: a base64 decode failure
(Go: `illegal base64 data at input byte …`) versus everything else
(here: `ciphertext too short`). -/
inductive DecryptError where
  | badBase64
  | tooShort
deriving DecidableEq

/-- `hostService.decrypt`: base64-decode, split off the 16-byte IV, and
CFB-decrypt the remainder. -/
def hostDecrypt (E : List Nat → List Nat) (cs : List Char) :
    Except DecryptError (List Nat) :=
  match b64DecodeChars cs with
  | none => .error .badBase64
  | some bytes =>
      if bytes.length < 16 then .error .tooShort
      else .ok (cfbDecryptBytes E (bytes.take 16) (bytes.drop 16))

/-! ## Host service (host_service.go)

The repository is modelled as a plain list of `Host` records (soft deletion
via the `deleted` flag, as gorm's `DeletedAt`).  String fields are
`List Char`; decrypted byte output is turned back into characters
code-point-wise, as Go's `string(bytes)` conversion does byte-wise. -/

structure Host where
  id : Nat
  name : String
  hostname : String
  port : Nat
  username : String
  authType : String
  password : List Char
  privateKey : List Char
  passphrase : List Char
  keyPath : String
  description : String
  status : String
  deleted : Bool
deriving DecidableEq

/-- One field of `DecryptSensitiveData`: empty fields are skipped; a base64
rejection (Go: message contains `illegal base64 data`) keeps the stored
value; any other decryption error is surfaced (`none`). -/
def decryptFieldTolerant (E : List Nat → List Nat) (v : List Char) :
    Option (List Char) :=
  if v = [] then some v
  else
    match hostDecrypt E v with
    | .ok d => some (d.map Char.ofNat)
    | .error .badBase64 => some v
    | .error .tooShort => none

/-- `hostService.DecryptSensitiveData`: password, private key and
passphrase are decrypted in place in that order; the first surfaced error
aborts, leaving already-processed fields decrypted (the Go method mutates
the record).  Returns the (possibly partially) updated host and whether
the whole method succeeded. -/
def DecryptSensitiveData (E : List Nat → List Nat) (h : Host) : Host × Bool :=
  match decryptFieldTolerant E h.password with
  | none => (h, false)
  | some pw =>
      let h1 := { h with password := pw }
      match decryptFieldTolerant E h1.privateKey with
      | none => (h1, false)
      | some pk =>
          let h2 := { h1 with privateKey := pk }
          match decryptFieldTolerant E h2.passphrase with
          | none => (h2, false)
          | some pp => ({ h2 with passphrase := pp }, true)

/-- gorm `First(&host, id)` (soft-deleted rows excluded). -/
def hostsFind (hosts : List Host) (id : Nat) : Option Host :=
  hosts.find? (fun h => !h.deleted && h.id == id)

/-- `hostService.GetHost`: fetch by id, then decrypt; a surfaced decryption
error fails the whole call. -/
def GetHost (E : List Nat → List Nat) (hosts : List Host) (id : Nat) :
    Option Host :=
  match hostsFind hosts id with
  | none => none
  | some h =>
      let r := DecryptSensitiveData E h
      if r.2 then some r.1 else none

/-- `hostService.GetAllHosts`: decrypt each host; a per-host decryption
error is skipped (`continue`) and the host is returned as far as it was
processed. -/
def GetAllHosts (E : List Nat → List Nat) (hosts : List Host) : List Host :=
  (hosts.filter (fun h => !h.deleted)).map
    (fun h => (DecryptSensitiveData E h).1)

/-- A constant block function standing in for AES in concrete examples. -/
def zeroBlockFun : List Nat → List Nat := fun _ => List.replicate 16 0

/-- A host whose stored password `"AAAA"` is well-formed base64 of only
3 bytes — shorter than one AES block, so decryption fails with
`ciphertext too short` rather than a base64 error. -/
def hostShortCipher : Host :=
  { id := 1, name := "legacy", hostname := "h1", port := 22, username := "u",
    authType := "password", password := "AAAA".toList, privateKey := [],
    passphrase := [], keyPath := "", description := "", status := "inactive",
    deleted := false }

/-! ## SOCKS5 server (internal/socks5/socks5.go)

One inbound connection performs two reads (method selection, then the
request) into a 256-byte buffer; each read is modelled by the byte list the
`conn.Read` call returns.  The SSH-backed dial of the parsed destination is
an oracle on the parsed components (the Go code formats them into a
host:port string and hands it to `sshClient.Dial`). -/

/-- A parsed SOCKS5 `CONNECT` destination: IPv4 (4 bytes), domain
(length-prefixed name), or IPv6 (16 bytes), each with a 2-byte big-endian
port. -/
inductive Socks5Dest where
  | ipv4 (a b c d : Nat) (port : Nat)
  | domain (name : List Nat) (port : Nat)
  | ipv6 (bytes : List Nat) (port : Nat)
deriving DecidableEq

/-- Outcome of destination parsing in `handleRequest`: a parsed
destination, a truncated buffer (error, no reply), or an unknown address
type (reply `0x08`). -/
inductive ParseOutcome where
  | ok (d : Socks5Dest)
  | incomplete
  | unsupported
deriving DecidableEq

/-- Result of `handleRequest`: the relay was entered with the dialled
destination, or the connection was terminated with an error. -/
inductive ReqResult where
  | relayStarted (d : Socks5Dest)
  | failed
deriving DecidableEq

/-- Destination parsing of `SOCKS5Server.handleRequest` (offset 4 of the
request buffer; `n` is the number of bytes read). -/
def parseDest (buf : List Nat) : ParseOutcome :=
  let n := buf.length
  match buf.getD 3 0 with
  | 1 =>
      if n < 4 + 6 then .incomplete
      else .ok (.ipv4 (buf.getD 4 0) (buf.getD 5 0) (buf.getD 6 0) (buf.getD 7 0)
        (buf.getD 8 0 * 256 + buf.getD 9 0))
  | 3 =>
      if n < 4 + 1 then .incomplete
      else
        let domainLen := buf.getD 4 0
        if n < 4 + 1 + domainLen + 2 then .incomplete
        else .ok (.domain ((buf.drop 5).take domainLen)
          (buf.getD (5 + domainLen) 0 * 256 + buf.getD (5 + domainLen + 1) 0))
  | 4 =>
      if n < 4 + 18 then .incomplete
      else .ok (.ipv6 ((buf.drop 4).take 16)
        (buf.getD 20 0 * 256 + buf.getD 21 0))
  | _ => .unsupported

/-- `SOCKS5Server.handleAuth`: returns the list of writes performed and
whether authentication succeeded. -/
def handleAuth (buf : List Nat) : List (List Nat) × Bool :=
  if buf.length < 2 ∨ buf.headD 0 ≠ 5 then ([], false)
  else
    let nMethods := buf.getD 1 0
    if buf.length < 2 + nMethods then ([], false)
    else if 0 ∈ (buf.drop 2).take nMethods then ([[5, 0]], true)
    else ([[5, 255]], false)

/-- `SOCKS5Server.handleRequest`: returns the list of writes performed and
whether the relay was entered. -/
def handleRequest (dial : Socks5Dest → Bool) (buf : List Nat) :
    List (List Nat) × ReqResult :=
  if buf.length < 4 ∨ buf.headD 0 ≠ 5 then ([], .failed)
  else if buf.getD 1 0 ≠ 1 then ([[5, 7, 0, 1, 0, 0, 0, 0, 0, 0]], .failed)
  else
    match parseDest buf with
    | .incomplete => ([], .failed)
    | .unsupported => ([[5, 8, 0, 1, 0, 0, 0, 0, 0, 0]], .failed)
    | .ok d =>
        if dial d then ([[5, 0, 0, 1, 0, 0, 0, 0, 0, 0]], .relayStarted d)
        else ([[5, 4, 0, 1, 0, 0, 0, 0, 0, 0]], .failed)

/-- `SOCKS5Server.HandleConnection`: authentication, then request
handling; an authentication failure terminates before the request read. -/
def HandleConnection (dial : Socks5Dest → Bool) (authBuf reqBuf : List Nat) :
    List (List Nat) × ReqResult :=
  let a := handleAuth authBuf
  if a.2 then
    let r := handleRequest dial reqBuf
    (a.1 ++ r.1, r.2)
  else (a.1, .failed)

/-! ## Tunnel engine (tunnel_service.go)

The repository is a list of `Tunnel` records (soft deletion as gorm's
`DeletedAt`); the in-memory registry of running tunnels is an association
list keyed by tunnel id; connection logs keep the tunnel id and event kind
(messages carry no information the claims touch).  The network and the SSH
library appear as boolean oracles in `StartEnv`: success of
`hostService.GetHost`, `ssh.Dial`, `net.Listen`, and `sshClient.Listen`.
Operations are sequential and atomic (each Go method's critical sections,
serialised). -/

structure Tunnel where
  id : Nat
  hostID : Nat
  name : String
  type : String
  localAddress : String
  localPort : Nat
  remoteAddress : String
  remotePort : Nat
  description : String
  status : String
  autoStart : Bool
  deleted : Bool
deriving DecidableEq

structure LogRecord where
  tunnelID : Nat
  eventType : String
deriving DecidableEq

/-- The in-memory `activeTunnel` record: the tunnel, whether `sshClient`
is set (always, when built by `StartTunnel`), and whether the `listener`
field is set (`false` = Go `nil`). -/
structure ActiveTunnel where
  tunnel : Tunnel
  sshClientSet : Bool
  listenerSet : Bool
deriving DecidableEq

structure EngineState where
  tunnels : List Tunnel
  activeTunnels : List (Nat × ActiveTunnel)
  logs : List LogRecord
deriving DecidableEq

/-- Oracles for the environment of `StartTunnel`. -/
structure StartEnv where
  getHostOk : Nat → Bool
  sshDialOk : Nat → Bool
  netListen : String → Nat → Bool
  sshListen : Nat → String → Nat → Bool

/-- Registry lookup `s.activeTunnels[id]`. -/
def lookupActive (st : EngineState) (id : Nat) : Option ActiveTunnel :=
  (st.activeTunnels.find? (fun e => e.1 == id)).map (fun e => e.2)

/-- gorm `First(&tunnel, id)` (soft-deleted rows excluded). -/
def tunnelsGetByID (ts : List Tunnel) (id : Nat) : Option Tunnel :=
  ts.find? (fun t => !t.deleted && t.id == id)

/-- Repo `UpdateStatus`: `UPDATE tunnels SET status=… WHERE id=…` (gorm
adds the soft-delete guard). -/
def updateStatus (ts : List Tunnel) (id : Nat) (status : String) : List Tunnel :=
  ts.map (fun t => if !t.deleted && t.id == id then { t with status := status } else t)

def setStatusState (st : EngineState) (id : Nat) (status : String) : EngineState :=
  { st with tunnels := updateStatus st.tunnels id status }

/-- `addConnectionLog` (repo insert; the timestamp and message carry no
information the claims touch). -/
def addLog (st : EngineState) (id : Nat) (event : String) : EngineState :=
  { st with logs := st.logs ++ [{ tunnelID := id, eventType := event }] }

/-- A fresh primary key for an auto-assigned id (`max + 1`). -/
def freshID (ts : List Tunnel) : Nat :=
  (ts.map (fun t => t.id)).foldr Nat.max 0 + 1

/-- Repo `Create`: gorm assigns the primary key when the record's id is 0
and keeps an explicit id; inserting a duplicate primary key fails. -/
def tunnelsCreate (ts : List Tunnel) (t : Tunnel) :
    Except String (List Tunnel × Tunnel) :=
  if ts.any (fun ex => ex.id == (if t.id = 0 then freshID ts else t.id)) then
    .error "UNIQUE constraint failed"
  else
    .ok (ts ++ [{ t with id := if t.id = 0 then freshID ts else t.id }],
         { t with id := if t.id = 0 then freshID ts else t.id })

/-- Repo `Update` (gorm `Save`): replace the record with this primary key,
or insert it if absent. -/
def tunnelsSave (ts : List Tunnel) (t : Tunnel) : List Tunnel :=
  if ts.any (fun ex => ex.id == t.id) then
    ts.map (fun ex => if ex.id == t.id then t else ex)
  else ts ++ [t]

/-- Repo `Delete`: hard-delete the tunnel's connection logs, then
soft-delete the tunnel. -/
def tunnelsDelete (ts : List Tunnel) (id : Nat) : List Tunnel :=
  ts.map (fun t => if t.id == id && !t.deleted then { t with deleted := true } else t)

/-- `validateTunnelConfig`: required fields per kind; for `remote_forward`
a blank remote address defaults to `0.0.0.0` (the method mutates the
record). -/
def validateTunnelConfig (t : Tunnel) : Except String Tunnel :=
  if t.name = "" then .error "tunnel name is required"
  else if t.hostID = 0 then .error "host ID is required"
  else if t.localPort = 0 then .error "local port is required"
  else if t.type = "local_forward" then
    if t.remoteAddress = "" then .error "remote address is required for local forward"
    else if t.remotePort = 0 then .error "remote port is required for local forward"
    else .ok t
  else if t.type = "remote_forward" then
    -- the source applies the 0.0.0.0 default before the port check; the
    -- order is observationally equivalent as the check reads only the port
    if t.remotePort = 0 then .error "remote port is required for remote forward"
    else if t.remoteAddress = "" then .ok { t with remoteAddress := "0.0.0.0" }
    else .ok t
  else if t.type = "dynamic" then .ok t
  else .error "invalid tunnel type"

/-- `checkPortAvailability`: a transient bind on the local address must
succeed, and no other persisted (non-deleted) tunnel may hold the same
{local address, local port}, nor — for `remote_forward` on the same host —
the same {remote address, remote port}.  The two conflict messages are
collapsed into one. -/
def checkPortAvailability (netListen : String → Nat → Bool) (ts : List Tunnel)
    (t : Tunnel) : Option String :=
  if netListen t.localAddress t.localPort = false then
    some "local port is not available"
  else if ts.any (fun ex => !ex.deleted && !(ex.id == t.id) &&
      ((ex.localPort == t.localPort && ex.localAddress == t.localAddress) ||
       (t.type == "remote_forward" && ex.type == "remote_forward" &&
        ex.hostID == t.hostID && ex.remotePort == t.remotePort &&
        ex.remoteAddress == t.remoteAddress))) then
    some "port already in use by another tunnel"
  else none

/-- `CreateTunnel`: validate, check port availability, set status
`inactive`, persist. -/
def CreateTunnel (netListen : String → Nat → Bool) (st : EngineState)
    (t : Tunnel) : Except String (EngineState × Tunnel) :=
  match validateTunnelConfig t with
  | .error e => .error e
  | .ok t1 =>
      match checkPortAvailability netListen st.tunnels t1 with
      | some e => .error e
      | none =>
          match tunnelsCreate st.tunnels { t1 with status := "inactive" } with
          | .error e => .error e
          | .ok (ts1, tc) => .ok ({ st with tunnels := ts1 }, tc)

structure LocalServiceMapping where
  name : String
  localAddress : String
  localPort : Nat
  remoteAddress : String
  remotePort : Nat
  autoStart : Bool
  description : String
deriving DecidableEq

/-- `CreateMultipleLocalForwards`: best-effort batch of `remote_forward`
records; returns the final state, the created tunnels, and whether any
entry failed. -/
def CreateMultipleLocalForwards (netListen : String → Nat → Bool)
    (st : EngineState) (hostID : Nat) :
    List LocalServiceMapping → EngineState × List Tunnel × Bool
  | [] => (st, [], false)
  | svc :: rest =>
      match CreateTunnel netListen st
        { id := 0, hostID := hostID, name := svc.name, type := "remote_forward",
          localAddress := svc.localAddress, localPort := svc.localPort,
          remoteAddress := svc.remoteAddress, remotePort := svc.remotePort,
          description := svc.description, status := "", autoStart := svc.autoStart,
          deleted := false } with
      | .error _ =>
          ((CreateMultipleLocalForwards netListen st hostID rest).1,
           (CreateMultipleLocalForwards netListen st hostID rest).2.1, true)
      | .ok (st1, tc) =>
          ((CreateMultipleLocalForwards netListen st1 hostID rest).1,
           tc :: (CreateMultipleLocalForwards netListen st1 hostID rest).2.1,
           (CreateMultipleLocalForwards netListen st1 hostID rest).2.2)

/-- The ascending scan of `FindAvailablePort`, with the loop's iteration
count made explicit (`endPort - startPort + 1` trips). -/
def findPortLoop (netListen : String → Nat → Bool) (addr : String) :
    Nat → Nat → Option Nat
  | _, 0 => none
  | port, fuel + 1 =>
      if netListen addr port then some port
      else findPortLoop netListen addr (port + 1) fuel

/-- `FindAvailablePort`: first port in `[startPort, endPort]` on which a
transient bind succeeds; a blank address defaults to `localhost`. -/
def FindAvailablePort (netListen : String → Nat → Bool)
    (startPort endPort : Nat) (address : String) : Option Nat :=
  let addr := if address = "" then "localhost" else address
  findPortLoop netListen addr startPort (endPort + 1 - startPort)

/-- `CreateDynamicSOCKS5Tunnel`: scan 1080–1090 on localhost, falling back
to 8080–8090, then create a `dynamic` tunnel on the found port. -/
def CreateDynamicSOCKS5Tunnel (netListen : String → Nat → Bool)
    (st : EngineState) (hostID : Nat) (name description : String)
    (autoStart : Bool) : Except String (EngineState × Tunnel) :=
  match (match FindAvailablePort netListen 1080 1090 "localhost" with
         | some p => some p
         | none => FindAvailablePort netListen 8080 8090 "localhost") with
  | none => .error "failed to find available port"
  | some p =>
      CreateTunnel netListen st
        { id := 0, hostID := hostID, name := name, type := "dynamic",
          localAddress := "localhost", localPort := p, remoteAddress := "",
          remotePort := 0, description := description, status := "",
          autoStart := autoStart, deleted := false }

/-- The `s.activeTunnels[tunnel.ID].listener = listener` write inside the
per-kind start routines: it stores the freshly bound listener into the
registry entry only when such an entry already exists. -/
def storeListener (st : EngineState) (id : Nat) : EngineState :=
  { st with activeTunnels := st.activeTunnels.map (fun e =>
      if e.1 == id then (e.1, { e.2 with listenerSet := true }) else e) }

/-- `startLocalForward`: bind the local address (else fail), then store
the listener into the registry entry if present.  The accept loop runs on
a separate goroutine and has no further immediate state effect. -/
def startLocalForward (env : StartEnv) (st : EngineState) (t : Tunnel) :
    Except String EngineState :=
  if env.netListen t.localAddress t.localPort then .ok (storeListener st t.id)
  else .error "failed to listen"

/-- `startRemoteForward`: request the remote listener over SSH (else
fail), then store it into the registry entry if present. -/
def startRemoteForward (env : StartEnv) (st : EngineState) (t : Tunnel) :
    Except String EngineState :=
  if env.sshListen t.hostID t.remoteAddress t.remotePort then
    .ok (storeListener st t.id)
  else .error "failed to listen on remote"

/-- `startDynamicForward`: bind the local SOCKS5 address (else fail), then
store the listener into the registry entry if present. -/
def startDynamicForward (env : StartEnv) (st : EngineState) (t : Tunnel) :
    Except String EngineState :=
  if env.netListen t.localAddress t.localPort then .ok (storeListener st t.id)
  else .error "failed to listen"

/-- Insert the new `activeTunnel` handle into the registry; its `listener`
field is not set (`nil`). -/
def registerActive (st : EngineState) (id : Nat) (t : Tunnel) : EngineState :=
  { st with activeTunnels := st.activeTunnels ++
      [(id, { tunnel := t, sshClientSet := true, listenerSet := false })] }

/-- `StartTunnel`: look up the tunnel, guard against double starts,
resolve the host (with decryption), dial SSH, dispatch by kind, then
register the handle, set status `active` and append a `start` log event.
An SSH-dial or dispatch failure appends an `error` event and sets status
`error`; the earlier guards (and an unsupported kind, the `switch`
default) return without touching persisted state. -/
def StartTunnel (env : StartEnv) (st : EngineState) (id : Nat) :
    Option String × EngineState :=
  match tunnelsGetByID st.tunnels id with
  | none => (some "failed to get tunnel", st)
  | some tunnel =>
      if (lookupActive st id).isSome then (some "tunnel is already running", st)
      else if env.getHostOk tunnel.hostID = false then
        (some "failed to get host", st)
      else if env.sshDialOk tunnel.hostID = false then
        (some "failed to create SSH connection",
          setStatusState (addLog st id "error") id "error")
      else if tunnel.type ≠ "local_forward" ∧ tunnel.type ≠ "remote_forward" ∧
          tunnel.type ≠ "dynamic" then
        (some "unsupported tunnel type", st)
      else
        match
          (if tunnel.type = "local_forward" then startLocalForward env st tunnel
           else if tunnel.type = "remote_forward" then startRemoteForward env st tunnel
           else startDynamicForward env st tunnel) with
        | .error _ =>
            (some "failed to start tunnel",
              setStatusState (addLog st id "error") id "error")
        | .ok st1 =>
            (none, addLog (setStatusState (registerActive st1 id tunnel) id "active")
              id "start")

/-- The externally visible effects of `StopTunnel`, in execution order. -/
inductive StopEffect where
  | closeListener
  | cancelCtx
  | closeSSH
  | sleep200
  | setInactive
  | logStopEvent
deriving DecidableEq

/-- `StopTunnel`: remove the handle from the registry (error if absent),
then: close the listener if set, cancel the context, close the SSH client
if set, sleep 200 ms, set status `inactive`, append a `stop` event.  The
effect trace is returned alongside the new state. -/
def StopTunnel (st : EngineState) (id : Nat) :
    Option String × EngineState × List StopEffect :=
  match lookupActive st id with
  | none => (some "tunnel is not running", st, [])
  | some a =>
      let st0 := { st with activeTunnels :=
        st.activeTunnels.filter (fun e => !(e.1 == id)) }
      let trace :=
        (if a.listenerSet then [StopEffect.closeListener] else []) ++
        [StopEffect.cancelCtx] ++
        (if a.sshClientSet then [StopEffect.closeSSH] else []) ++
        [StopEffect.sleep200, StopEffect.setInactive, StopEffect.logStopEvent]
      (none, addLog (setStatusState st0 id "inactive") id "stop", trace)

/-- `RestartTunnel`: stop (tolerating "not running"), pause, start. -/
def RestartTunnel (env : StartEnv) (st : EngineState) (id : Nat) :
    Option String × EngineState :=
  match StopTunnel st id with
  | (some e, st1, _) =>
      if e = "tunnel is not running" then StartTunnel env st1 id else (some e, st1)
  | (none, st1, _) => StartTunnel env st1 id

/-- `UpdateTunnel`: revalidate; if the tunnel is running, stop, persist,
restart; otherwise just persist.  (No port-availability check.) -/
def UpdateTunnel (env : StartEnv) (st : EngineState) (t : Tunnel) :
    Option String × EngineState :=
  match validateTunnelConfig t with
  | .error e => (some e, st)
  | .ok t1 =>
      if (lookupActive st t1.id).isSome then
        match StopTunnel st t1.id with
        | (some e, st1, _) => (some e, st1)
        | (none, st1, _) =>
            StartTunnel env { st1 with tunnels := tunnelsSave st1.tunnels t1 } t1.id
      else (none, { st with tunnels := tunnelsSave st.tunnels t1 })

/-- `DeleteTunnel`: best-effort stop, then repo delete (logs first). -/
def DeleteTunnel (st : EngineState) (id : Nat) : EngineState :=
  let st1 := (StopTunnel st id).2.1
  { st1 with tunnels := tunnelsDelete st1.tunnels id,
             logs := st1.logs.filter (fun l => !(l.tunnelID == id)) }

/-- `StopAllTunnels`: snapshot the running ids, stop each (failures
logged, never aborting). -/
def StopAllTunnels (st : EngineState) : EngineState :=
  (st.activeTunnels.map (fun e => e.1)).foldl
    (fun s i => (StopTunnel s i).2.1) st

/-- `StartAutoTunnels`: start every auto-start tunnel; per-tunnel failures
do not abort the batch. -/
def StartAutoTunnels (env : StartEnv) (st : EngineState) : EngineState :=
  (st.tunnels.filter (fun t => !t.deleted && t.autoStart)).foldl
    (fun s t => (StartTunnel env s t.id).2) st

/-- `GetTunnelStatus`: `active` while a handle is registered, else the
persisted status. -/
def GetTunnelStatus (st : EngineState) (id : Nat) : Option String :=
  if (lookupActive st id).isSome then some "active"
  else (tunnelsGetByID st.tunnels id).map (fun t => t.status)

/-- States of the engine reachable from process start (empty registry,
any persisted tunnel set) through the public operations, each with
arbitrary oracle outcomes. -/
inductive Reachable : EngineState → Prop where
  | init (ts : List Tunnel) :
      Reachable { tunnels := ts, activeTunnels := [], logs := [] }
  | createStep {st st' : EngineState} {netL : String → Nat → Bool}
      {t tc : Tunnel} : Reachable st →
      CreateTunnel netL st t = .ok (st', tc) → Reachable st'
  | createMultiStep {st : EngineState} {netL : String → Nat → Bool}
      {hostID : Nat} {svcs : List LocalServiceMapping} : Reachable st →
      Reachable (CreateMultipleLocalForwards netL st hostID svcs).1
  | createDynStep {st st' : EngineState} {netL : String → Nat → Bool}
      {hostID : Nat} {name description : String} {autoStart : Bool}
      {tc : Tunnel} : Reachable st →
      CreateDynamicSOCKS5Tunnel netL st hostID name description autoStart =
        .ok (st', tc) → Reachable st'
  | updateStep {st : EngineState} {env : StartEnv} {t : Tunnel} :
      Reachable st → Reachable (UpdateTunnel env st t).2
  | deleteStep {st : EngineState} {id : Nat} :
      Reachable st → Reachable (DeleteTunnel st id)
  | startStep {st : EngineState} {env : StartEnv} {id : Nat} :
      Reachable st → Reachable (StartTunnel env st id).2
  | stopStep {st : EngineState} {id : Nat} :
      Reachable st → Reachable (StopTunnel st id).2.1
  | restartStep {st : EngineState} {env : StartEnv} {id : Nat} :
      Reachable st → Reachable (RestartTunnel env st id).2
  | stopAllStep {st : EngineState} :
      Reachable st → Reachable (StopAllTunnels st)
  | autoStep {st : EngineState} {env : StartEnv} :
      Reachable st → Reachable (StartAutoTunnels env st)

/-- Every registered handle has a `nil` listener field. -/
def RegistryNilListeners (st : EngineState) : Prop :=
  ∀ e ∈ st.activeTunnels, e.2.listenerSet = false

/-- Environment in which every oracle succeeds. -/
def demoEnv : StartEnv :=
  { getHostOk := fun _ => true, sshDialOk := fun _ => true,
    netListen := fun _ _ => true, sshListen := fun _ _ _ => true }

/-- Environment in which the SSH dial fails. -/
def demoEnvDialFail : StartEnv :=
  { getHostOk := fun _ => true, sshDialOk := fun _ => false,
    netListen := fun _ _ => true, sshListen := fun _ _ _ => true }

/-- A valid persisted local-forward tunnel. -/
def demoTunnel : Tunnel :=
  { id := 1, hostID := 1, name := "web", type := "local_forward",
    localAddress := "127.0.0.1", localPort := 9999,
    remoteAddress := "10.0.0.2", remotePort := 80, description := "",
    status := "inactive", autoStart := false, deleted := false }

/-- Engine state at process start with `demoTunnel` persisted. -/
def demoState : EngineState :=
  { tunnels := [demoTunnel], activeTunnels := [], logs := [] }

/-- The persisted-uniqueness invariant: two distinct non-deleted tunnels
never share {local address, local port}, and two distinct non-deleted
`remote_forward` tunnels never share {host id, remote address, remote
port}. -/
def TunnelUniqueness (ts : List Tunnel) : Prop :=
  List.Pairwise (fun a b =>
    (a.deleted = false → b.deleted = false →
      ¬(a.localAddress = b.localAddress ∧ a.localPort = b.localPort)) ∧
    (a.deleted = false → b.deleted = false → a.type = "remote_forward" →
      b.type = "remote_forward" →
      ¬(a.hostID = b.hostID ∧ a.remoteAddress = b.remoteAddress ∧
        a.remotePort = b.remotePort))) ts

/-- Primary keys are pairwise distinct and positive. -/
def IdsDistinct (ts : List Tunnel) : Prop :=
  List.Pairwise (fun a b => a.id ≠ b.id) ts ∧ ∀ t ∈ ts, t.id ≠ 0

/-- A second persisted local-forward tunnel on a different port. -/
def demoTunnelB : Tunnel :=
  { id := 2, hostID := 1, name := "db", type := "local_forward",
    localAddress := "127.0.0.1", localPort := 9000,
    remoteAddress := "10.0.0.2", remotePort := 5432, description := "",
    status := "inactive", autoStart := false, deleted := false }

/-- State holding `demoTunnel` (port 9999) and `demoTunnelB` (port 9000). -/
def demoStatePair : EngineState :=
  { tunnels := [demoTunnel, demoTunnelB], activeTunnels := [], logs := [] }

/-! ## Clash exporter (clash_export_service.go)

The YAML serialisation itself (gopkg.in/yaml.v3) and the timestamped
header comment are outside the claims; the generated `ClashConfig` value
is modelled in full.  Go's `sort.Slice` by ascending local port becomes an
insertion sort (any sorted permutation; tie order is unspecified in the
source). -/

structure ClashProxy where
  name : String
  type : String
  server : String
  port : Nat
deriving DecidableEq

structure ClashProxyGroup where
  name : String
  type : String
  proxies : List String
  url : String
  interval : Nat
deriving DecidableEq

structure ClashDNS where
  enable : Bool
  listen : String
  nameserver : List String
  enhancedMode : String
  fakeIPRange : String
  useHosts : Bool
  fakeIPFilter : List String
deriving DecidableEq

structure ClashConfig where
  port : Nat
  socksPort : Nat
  allowLan : Bool
  mode : String
  logLevel : String
  externalUI : String
  externalController : String
  proxies : List ClashProxy
  proxyGroups : List ClashProxyGroup
  rules : List String
  dns : ClashDNS
deriving DecidableEq

/-- One SOCKS5 proxy entry: named
`drilling-{sanitized host name}-{local port}`, pointing at the tunnel's
local address and port. -/
def clashProxyFor (h : Host) (t : Tunnel) : ClashProxy :=
  { name := "drilling-" ++ (sanitizeName h.name.toList).asString ++ "-" ++
      toString t.localPort,
    type := "socks5", server := t.localAddress, port := t.localPort }

/-- `GetActiveSocks5Tunnels`: all non-deleted tunnels of kind `dynamic`
with status `active`, sorted by ascending local port. -/
def GetActiveSocks5Tunnels (ts : List Tunnel) : List Tunnel :=
  List.insertionSort (fun a b => a.localPort ≤ b.localPort)
    ((ts.filter (fun t => !t.deleted)).filter
      (fun t => t.type == "dynamic" && t.status == "active"))

/-- `GenerateClashConfig`: fails when no active dynamic tunnel exists;
otherwise builds one socks5 proxy per active dynamic tunnel whose host
record resolves (a failing host lookup is skipped), an `Auto` url-test
group, a `Proxy` select group (`Auto, DIRECT` prefix, with `LoadBalance`
inserted between them when a second proxy exists — the source then
rewrites groups[1]), a `LoadBalance` group when ≥ 2 proxies, fixed rules
and DNS settings. -/
def GenerateClashConfig (ts : List Tunnel) (hosts : List Host) :
    Except String ClashConfig :=
  if (GetActiveSocks5Tunnels ts).isEmpty then
    .error "no active SOCKS5 tunnels found"
  else
    .ok
      { port := 7890, socksPort := 7891, allowLan := false, mode := "rule",
        logLevel := "info", externalUI := "",
        externalController := "127.0.0.1:9090",
        proxies := (GetActiveSocks5Tunnels ts).filterMap (fun t =>
          (hostsFind hosts t.hostID).map (fun h => clashProxyFor h t)),
        proxyGroups :=
          (if ((GetActiveSocks5Tunnels ts).filterMap (fun t =>
              (hostsFind hosts t.hostID).map (fun h =>
                clashProxyFor h t))).isEmpty then []
           else if ((GetActiveSocks5Tunnels ts).filterMap (fun t =>
              (hostsFind hosts t.hostID).map (fun h =>
                clashProxyFor h t))).length ≤ 1 then
            [{ name := "Auto", type := "url-test",
               proxies := ((GetActiveSocks5Tunnels ts).filterMap (fun t =>
                 (hostsFind hosts t.hostID).map (fun h =>
                   clashProxyFor h t))).map (fun p => p.name),
               url := "http://www.gstatic.com/generate_204", interval := 300 },
             { name := "Proxy", type := "select",
               proxies := ["Auto", "DIRECT"] ++
                 ((GetActiveSocks5Tunnels ts).filterMap (fun t =>
                   (hostsFind hosts t.hostID).map (fun h =>
                     clashProxyFor h t))).map (fun p => p.name),
               url := "", interval := 0 }]
           else
            [{ name := "Auto", type := "url-test",
               proxies := ((GetActiveSocks5Tunnels ts).filterMap (fun t =>
                 (hostsFind hosts t.hostID).map (fun h =>
                   clashProxyFor h t))).map (fun p => p.name),
               url := "http://www.gstatic.com/generate_204", interval := 300 },
             { name := "Proxy", type := "select",
               proxies := ["Auto", "LoadBalance", "DIRECT"] ++
                 ((GetActiveSocks5Tunnels ts).filterMap (fun t =>
                   (hostsFind hosts t.hostID).map (fun h =>
                     clashProxyFor h t))).map (fun p => p.name),
               url := "", interval := 0 },
             { name := "LoadBalance", type := "load-balance",
               proxies := ((GetActiveSocks5Tunnels ts).filterMap (fun t =>
                 (hostsFind hosts t.hostID).map (fun h =>
                   clashProxyFor h t))).map (fun p => p.name),
               url := "http://www.gstatic.com/generate_204", interval := 300 }]),
        rules := ["DOMAIN-SUFFIX,local,DIRECT", "DOMAIN-SUFFIX,localhost,DIRECT",
          "DOMAIN-SUFFIX,lan,DIRECT", "IP-CIDR,127.0.0.0/8,DIRECT",
          "IP-CIDR,169.254.0.0/16,DIRECT", "IP-CIDR,192.168.0.0/16,DIRECT",
          "IP-CIDR,10.0.0.0/8,DIRECT", "IP-CIDR,172.16.0.0/12,DIRECT",
          "IP-CIDR,224.0.0.0/4,DIRECT", "IP-CIDR,240.0.0.0/4,DIRECT",
          "GEOIP,CN,DIRECT", "MATCH,Proxy"],
        dns := { enable := true, listen := "0.0.0.0:53",
                 nameserver := ["223.5.5.5", "1.1.1.1"],
                 enhancedMode := "fake-ip", fakeIPRange := "198.18.0.1/16",
                 useHosts := true,
                 fakeIPFilter := ["*.lan", "localhost.ptlogin2.qq.com",
                   "dns.msftncsi.com", "www.msftncsi.com",
                   "www.msftconnecttest.com"] } }

/-- A running dynamic tunnel on `127.0.0.1:1080` for the host `home`. -/
def clashDemoTunnel : Tunnel :=
  { id := 1, hostID := 1, name := "s5", type := "dynamic",
    localAddress := "127.0.0.1", localPort := 1080, remoteAddress := "",
    remotePort := 0, description := "", status := "active",
    autoStart := false, deleted := false }

/-- The host named `home`. -/
def clashDemoHost : Host :=
  { id := 1, name := "home", hostname := "h", port := 22, username := "u",
    authType := "password", password := [], privateKey := [],
    passphrase := [], keyPath := "", description := "", status := "active",
    deleted := false }

/-! ## Theorems -/

/-! ## Lemmas about `sanitizeName` -/

theorem collapseStep_length_le (l : List Char) :
    (collapseStep l).length ≤ l.length := by
  induction l using collapseStep.induct with
  | case1 => simp [collapseStep]
  | case2 c => simp [collapseStep]
  | case3 a b rest h ih => simp [collapseStep, h]; omega
  | case4 a b rest h ih => simp [collapseStep, h] at ih ⊢; omega

theorem collapseStep_length_lt (l : List Char) (h : hasDoubleDash l = true) :
    (collapseStep l).length < l.length := by
  induction l using collapseStep.induct with
  | case1 => simp [hasDoubleDash] at h
  | case2 c => simp [hasDoubleDash] at h
  | case3 a b rest hd ih =>
      have := collapseStep_length_le rest
      simp [collapseStep, hd]
      omega
  | case4 a b rest hd ih =>
      simp [hasDoubleDash, hd] at h
      have := ih h
      simp [collapseStep, hd] at this ⊢
      omega

theorem mem_collapseStep {c : Char} : ∀ {l : List Char}, c ∈ collapseStep l → c ∈ l := by
  intro l
  induction l using collapseStep.induct with
  | case1 => simp [collapseStep]
  | case2 d => simp [collapseStep]
  | case3 a b rest hd ih =>
      intro h
      obtain ⟨ha, hb⟩ := hd
      subst ha; subst hb
      simp only [collapseStep, and_self, if_true, List.mem_cons] at h
      rcases h with h | h
      · simp [h]
      · exact List.mem_cons_of_mem _ (List.mem_cons_of_mem _ (ih h))
  | case4 a b rest hd ih =>
      intro h
      simp only [collapseStep, if_neg hd, List.mem_cons] at h
      rcases h with h | h
      · simp [h]
      · have := ih h
        simp only [List.mem_cons] at this ⊢
        tauto

theorem mem_collapseIter {c : Char} :
    ∀ (fuel : Nat) {l : List Char}, c ∈ collapseIter fuel l → c ∈ l := by
  intro fuel
  induction fuel with
  | zero => intro l h; simp [collapseIter] at h; exact h
  | succ n ih =>
      intro l h
      simp only [collapseIter] at h
      by_cases hd : hasDoubleDash l
      · simp only [hd, if_true] at h
        exact mem_collapseStep (ih h)
      · simp only [hd, if_false] at h
        exact h

theorem hasDoubleDash_eq_true_iff (l : List Char) :
    hasDoubleDash l = true ↔ ∃ u v, l = u ++ '-' :: '-' :: v := by
  induction l using hasDoubleDash.induct with
  | case1 =>
      constructor
      · intro h; simp [hasDoubleDash] at h
      · rintro ⟨u, v, h⟩
        have := congrArg List.length h
        simp at this
        omega
  | case2 a =>
      constructor
      · intro h; simp [hasDoubleDash] at h
      · rintro ⟨u, v, h⟩
        have := congrArg List.length h
        simp at this
        omega
  | case3 a b rest hd =>
      obtain ⟨ha, hb⟩ := hd
      subst ha; subst hb
      constructor
      · intro _; exact ⟨[], rest, rfl⟩
      · intro _; simp [hasDoubleDash]
  | case4 a b rest hd ih =>
      simp only [hasDoubleDash, if_neg hd]
      rw [ih]
      constructor
      · rintro ⟨u, v, h⟩
        exact ⟨a :: u, v, by simp [h]⟩
      · rintro ⟨u, v, h⟩
        match u, h with
        | [], h =>
            simp at h
            exact absurd ⟨h.1, h.2.1⟩ hd
        | x :: u', h =>
            simp at h
            exact ⟨u', v, h.2⟩

theorem hasDoubleDash_dropWhile {p : Char → Bool} {l : List Char}
    (h : hasDoubleDash l = false) : hasDoubleDash (l.dropWhile p) = false := by
  by_contra hc
  rw [Bool.not_eq_false, hasDoubleDash_eq_true_iff] at hc
  obtain ⟨u, v, huv⟩ := hc
  rw [Bool.eq_false_iff, Ne, hasDoubleDash_eq_true_iff] at h
  exact h ⟨l.takeWhile p ++ u, v, by
    conv_lhs => rw [← List.takeWhile_append_dropWhile (p := p) (l := l)]
    simp [huv]⟩

theorem hasDoubleDash_rdropWhile {p : Char → Bool} {l : List Char}
    (h : hasDoubleDash l = false) : hasDoubleDash (List.rdropWhile p l) = false := by
  by_contra hc
  rw [Bool.not_eq_false, hasDoubleDash_eq_true_iff] at hc
  obtain ⟨u, v, huv⟩ := hc
  obtain ⟨w, hw⟩ := List.rdropWhile_prefix p l
  rw [Bool.eq_false_iff, Ne, hasDoubleDash_eq_true_iff] at h
  exact h ⟨u, v ++ w, by rw [← hw, huv]; simp⟩

theorem hasDoubleDash_trimDashes {l : List Char}
    (h : hasDoubleDash l = false) : hasDoubleDash (trimDashes l) = false :=
  hasDoubleDash_rdropWhile (hasDoubleDash_dropWhile h)

theorem hasDoubleDash_collapseIter :
    ∀ (fuel : Nat) (l : List Char), l.length ≤ fuel →
      hasDoubleDash (collapseIter fuel l) = false := by
  intro fuel
  induction fuel with
  | zero =>
      intro l hl
      have : l = [] := List.length_eq_zero.mp (Nat.le_zero.mp hl)
      subst this
      simp [collapseIter, hasDoubleDash]
  | succ n ih =>
      intro l hl
      simp only [collapseIter]
      by_cases hd : hasDoubleDash l
      · have := collapseStep_length_lt l hd
        simp only [hd, if_true]
        exact ih _ (by omega)
      · simp [hd]

theorem hasDoubleDash_collapseLoop (l : List Char) :
    hasDoubleDash (collapseLoop l) = false :=
  hasDoubleDash_collapseIter l.length l le_rfl

theorem collapseIter_of_noDD {l : List Char} (h : hasDoubleDash l = false) :
    ∀ fuel, collapseIter fuel l = l := by
  intro fuel
  cases fuel with
  | zero => rfl
  | succ n => simp [collapseIter, h]

theorem replaceChar_not_forbidden {a c : Char} (h : c ∈ replaceChar a) :
    forbiddenChar c = false := by
  unfold replaceChar at h
  by_cases hd : dashChar a
  · simp [hd] at h
    subst h; decide
  · by_cases hr : dropChar a
    · simp [hd, hr] at h
    · simp [hd, hr] at h
      subst h
      simp [forbiddenChar, hd, hr]

theorem replaceChar_eq_self {c : Char} (h : forbiddenChar c = false) :
    replaceChar c = [c] := by
  simp only [forbiddenChar, Bool.or_eq_false_iff] at h
  simp [replaceChar, h.1, h.2]

theorem flatten_replaceChar_eq_self {l : List Char}
    (h : ∀ c ∈ l, forbiddenChar c = false) : (l.map replaceChar).flatten = l := by
  induction l with
  | nil => simp
  | cons a t ih =>
      simp only [List.map_cons, List.flatten_cons,
        replaceChar_eq_self (h a (by simp))]
      simp [ih fun c hc => h c (by simp [hc])]

theorem mem_trimDashes {c : Char} {l : List Char} (h : c ∈ trimDashes l) : c ∈ l := by
  unfold trimDashes at h
  obtain ⟨w, hw⟩ := List.rdropWhile_prefix (fun c => c == '-')
    (List.dropWhile (fun c => c == '-') l)
  have h1 : c ∈ List.dropWhile (fun c => c == '-') l := by
    rw [← hw]; exact List.mem_append_left _ h
  have h2 := List.takeWhile_append_dropWhile (p := fun c => c == '-') (l := l)
  rw [← h2]
  exact List.mem_append_right _ h1

theorem mem_collapseLoop {c : Char} {l : List Char} (h : c ∈ collapseLoop l) :
    c ∈ l :=
  mem_collapseIter _ h

theorem mem_sanitizeName_not_forbidden {x : List Char} {c : Char}
    (h : c ∈ sanitizeName x) : forbiddenChar c = false := by
  unfold sanitizeName at h
  split at h
  · have hp : ("proxy".toList : List Char) = ['p', 'r', 'o', 'x', 'y'] := rfl
    rw [hp] at h
    fin_cases h <;> decide
  · have h1 : c ∈ (x.map replaceChar).flatten :=
      mem_collapseLoop (mem_trimDashes h)
    obtain ⟨s, hs, hcs⟩ := List.mem_flatten.mp h1
    obtain ⟨a, -, rfl⟩ := List.mem_map.mp hs
    exact replaceChar_not_forbidden hcs

theorem sanitizeName_ne_nil (x : List Char) : sanitizeName x ≠ [] := by
  unfold sanitizeName
  split
  · decide
  · next h => simpa [List.isEmpty_iff] using h

theorem dropWhile_fix_head {p : Char → Bool} {a : Char} {t : List Char}
    (h : List.dropWhile p (a :: t) = a :: t) : p a = false := by
  by_contra hc
  have hpa : p a = true := by revert hc; cases p a <;> simp
  rw [List.dropWhile_cons, if_pos hpa] at h
  have hle : (List.dropWhile p t).length ≤ t.length :=
    (List.dropWhile_sublist (p := p) (l := t)).length_le
  rw [h] at hle
  simp at hle

theorem trimDashes_head (l : List Char) :
    List.dropWhile (fun c => c == '-') (trimDashes l) = trimDashes l := by
  unfold trimDashes
  have hmfix : List.dropWhile (fun c => c == '-')
      (List.dropWhile (fun c => c == '-') l) = List.dropWhile (fun c => c == '-') l :=
    List.dropWhile_idempotent _ _
  cases hr : List.rdropWhile (fun c => c == '-')
      (List.dropWhile (fun c => c == '-') l) with
  | nil => simp
  | cons a t =>
      obtain ⟨w, hw⟩ := List.rdropWhile_prefix (fun c => c == '-')
        (List.dropWhile (fun c => c == '-') l)
      rw [hr] at hw
      rw [← hw] at hmfix
      simp only [List.cons_append] at hmfix
      have hpa := dropWhile_fix_head hmfix
      simp [List.dropWhile_cons, hpa]

theorem trimDashes_idem (l : List Char) :
    trimDashes (trimDashes l) = trimDashes l := by
  conv_lhs => rw [trimDashes, trimDashes_head l]
  rw [trimDashes]
  exact List.rdropWhile_idempotent _ _

theorem sanitizeName_noDD (x : List Char) :
    hasDoubleDash (sanitizeName x) = false := by
  unfold sanitizeName
  split
  · decide
  · exact hasDoubleDash_trimDashes (hasDoubleDash_collapseLoop _)

theorem sanitizeName_trim_fix (x : List Char) :
    trimDashes (sanitizeName x) = sanitizeName x := by
  unfold sanitizeName
  split
  · decide
  · exact trimDashes_idem _

theorem sanitizeName_idem (x : List Char) :
    sanitizeName (sanitizeName x) = sanitizeName x := by
  have hforb : ∀ c ∈ sanitizeName x, forbiddenChar c = false :=
    fun _ h => mem_sanitizeName_not_forbidden h
  have h1 : ((sanitizeName x).map replaceChar).flatten = sanitizeName x :=
    flatten_replaceChar_eq_self hforb
  have h3 : collapseLoop (sanitizeName x) = sanitizeName x :=
    collapseIter_of_noDD (sanitizeName_noDD x) _
  have h4 := sanitizeName_trim_fix x
  have h5 := sanitizeName_ne_nil x
  conv_lhs => rw [sanitizeName, h1, h3, h4]
  rw [if_neg (by simpa [List.isEmpty_iff] using h5)]

/-- C8: `sanitizeName` is idempotent, its output contains none of the
characters space `_` `.` `:` `/` `\` `|` `*` `?` `"` `'` `<` `>`, its output
is never empty, and on the three literal inputs of the spec it returns
`Home-PC-01-dev`, `proxy` and `a-b` respectively. -/
theorem sanitizeName_spec :
    (∀ x : List Char, sanitizeName (sanitizeName x) = sanitizeName x) ∧
    (∀ (x : List Char) (c : Char), c ∈ sanitizeName x → forbiddenChar c = false) ∧
    (∀ x : List Char, sanitizeName x ≠ []) ∧
    sanitizeName "Home  PC_01/dev".toList = "Home-PC-01-dev".toList ∧
    sanitizeName "***".toList = "proxy".toList ∧
    sanitizeName "-a--b-".toList = "a-b".toList :=
  ⟨sanitizeName_idem, fun _ _ h => mem_sanitizeName_not_forbidden h,
    sanitizeName_ne_nil, by decide, by decide, by decide⟩

/-- Witness for C8 at concrete inputs: the character `H` survives
sanitisation of `Home  PC_01/dev` and is not forbidden; sanitisation of
`abc` is idempotent; the empty name still sanitises to something
non-empty. -/
theorem sanitizeName_spec_witness :
    'H' ∈ sanitizeName "Home  PC_01/dev".toList ∧
    forbiddenChar 'H' = false ∧
    sanitizeName (sanitizeName "abc".toList) = sanitizeName "abc".toList ∧
    sanitizeName "".toList ≠ [] :=
  ⟨by decide, sanitizeName_spec.2.1 "Home  PC_01/dev".toList 'H' (by decide),
    sanitizeName_spec.1 "abc".toList, sanitizeName_spec.2.2.1 "".toList⟩

/-! ## Lemmas: base64 decode inverts encode -/

theorem charToSextet_sextetToChar : ∀ n : Fin 64,
    charToSextet (sextetToChar n.val) = some n.val := by decide

theorem sextetToChar_mem (n : Nat) : sextetToChar n ∈ b64Alphabet := by
  unfold sextetToChar
  by_cases h : n < b64Alphabet.length
  · rw [List.getD_eq_getElem _ _ h]
    exact List.getElem_mem h
  · rw [List.getD_eq_default _ _ (le_of_not_lt h)]
    decide

theorem sextetToChar_ne_pad (n : Nat) : sextetToChar n ≠ '=' := by
  intro h
  have := sextetToChar_mem n
  rw [h] at this
  revert this
  decide

theorem b64Encode_no_newline (bs : List Nat) :
    (b64EncodeBytes bs).filter (fun c => !(c == '\r' || c == '\n')) =
      b64EncodeBytes bs := by
  rw [List.filter_eq_self]
  intro c hc
  suffices hmem : c ∈ b64Alphabet ∨ c = '=' by
    rcases hmem with hmem | hmem
    · revert hmem
      have : ∀ x ∈ b64Alphabet, (!(x == '\r' || x == '\n')) = true := by decide
      exact this c
    · subst hmem; decide
  induction bs using b64EncodeBytes.induct with
  | case1 b1 b2 b3 rest ih =>
      simp only [b64EncodeBytes, List.mem_cons] at hc
      rcases hc with h | h | h | h | h
      all_goals first
        | (left; rw [h]; exact sextetToChar_mem _)
        | (exact ih h)
  | case2 b1 b2 =>
      simp only [b64EncodeBytes, List.mem_cons] at hc
      rcases hc with h | h | h | h | h
      · left; rw [h]; exact sextetToChar_mem _
      · left; rw [h]; exact sextetToChar_mem _
      · left; rw [h]; exact sextetToChar_mem _
      · right; exact h
      · simp at h
  | case3 b1 =>
      simp only [b64EncodeBytes, List.mem_cons] at hc
      rcases hc with h | h | h | h | h
      · left; rw [h]; exact sextetToChar_mem _
      · left; rw [h]; exact sextetToChar_mem _
      · right; exact h
      · right; exact h
      · simp at h
  | case4 => simp [b64EncodeBytes] at hc

theorem b64DecodeQuanta_encode (bs : List Nat) (h : ∀ b ∈ bs, b < 256) :
    b64DecodeQuanta (b64EncodeBytes bs) = some bs := by
  induction bs using b64EncodeBytes.induct with
  | case1 b1 b2 b3 rest ih =>
      have hb1 : b1 < 256 := h b1 (by simp)
      have hb2 : b2 < 256 := h b2 (by simp)
      have hb3 : b3 < 256 := h b3 (by simp)
      have hs1 : b1 / 4 < 64 := by omega
      have hs2 : b1 % 4 * 16 + b2 / 16 < 64 := by omega
      have hs3 : b2 % 16 * 4 + b3 / 64 < 64 := by omega
      have hs4 : b3 % 64 < 64 := by omega
      rw [b64EncodeBytes, b64DecodeQuanta,
        if_neg (fun hx => sextetToChar_ne_pad _ hx.1),
        if_neg (fun hx => sextetToChar_ne_pad _ hx.1)]
      rw [charToSextet_sextetToChar ⟨_, hs1⟩, charToSextet_sextetToChar ⟨_, hs2⟩,
        charToSextet_sextetToChar ⟨_, hs3⟩, charToSextet_sextetToChar ⟨_, hs4⟩]
      rw [ih (fun b hb => h b (by simp [hb]))]
      simp only [Option.bind_eq_bind, Option.some_bind]
      congr 1
      congr 1
      · omega
      congr 1
      · omega
      congr 1
      omega
  | case2 b1 b2 =>
      have hb1 : b1 < 256 := h b1 (by simp)
      have hb2 : b2 < 256 := h b2 (by simp)
      have hs1 : b1 / 4 < 64 := by omega
      have hs2 : b1 % 4 * 16 + b2 / 16 < 64 := by omega
      have hs3 : b2 % 16 * 4 < 64 := by omega
      rw [b64EncodeBytes, b64DecodeQuanta,
        if_neg (fun hx => sextetToChar_ne_pad _ hx.1),
        if_pos ⟨rfl, rfl⟩]
      rw [charToSextet_sextetToChar ⟨_, hs1⟩, charToSextet_sextetToChar ⟨_, hs2⟩,
        charToSextet_sextetToChar ⟨_, hs3⟩]
      simp only [Option.bind_eq_bind, Option.some_bind]
      congr 1
      congr 1
      · omega
      congr 1
      omega
  | case3 b1 =>
      have hb1 : b1 < 256 := h b1 (by simp)
      have hs1 : b1 / 4 < 64 := by omega
      have hs2 : b1 % 4 * 16 < 64 := by omega
      rw [b64EncodeBytes, b64DecodeQuanta, if_pos ⟨rfl, rfl, rfl⟩]
      rw [charToSextet_sextetToChar ⟨_, hs1⟩, charToSextet_sextetToChar ⟨_, hs2⟩]
      simp only [Option.bind_eq_bind, Option.some_bind]
      congr 1
      congr 1
      omega
  | case4 => rw [b64EncodeBytes, b64DecodeQuanta]

theorem b64_roundtrip (bs : List Nat) (h : ∀ b ∈ bs, b < 256) :
    b64DecodeChars (b64EncodeBytes bs) = some bs := by
  rw [b64DecodeChars, b64Encode_no_newline, b64DecodeQuanta_encode bs h]

/-! ## Lemmas: CFB decrypt inverts encrypt -/

theorem zipWith_xor_cancel :
    ∀ (a b : List Nat), a.length ≤ b.length →
      List.zipWith (fun x y => x ^^^ y)
        (List.zipWith (fun x y => x ^^^ y) a b) b = a := by
  intro a
  induction a with
  | nil => intro b _; simp
  | cons x a' ih =>
      intro b hb
      cases b with
      | nil => simp at hb
      | cons y b' =>
          simp only [List.zipWith_cons_cons, List.length_cons] at hb ⊢
          rw [Nat.xor_cancel_right, ih b' (by simpa using hb)]

theorem cfbEncryptBytes_nil (E : List Nat → List Nat) (prev : List Nat) :
    cfbEncryptBytes E prev [] = [] := by
  rw [cfbEncryptBytes]
  simp

theorem cfb_roundtrip_bounded (E : List Nat → List Nat)
    (hE : ∀ x, (E x).length = 16) :
    ∀ (n : Nat) (prev p : List Nat), p.length ≤ n →
      cfbDecryptBytes E prev (cfbEncryptBytes E prev p) = p := by
  intro n
  induction n with
  | zero =>
      intro prev p hp
      have : p = [] := List.length_eq_zero.mp (Nat.le_zero.mp hp)
      subst this
      rw [cfbEncryptBytes, cfbDecryptBytes]
      simp
  | succ m ih =>
      intro prev p hp
      by_cases hnil : p = []
      · subst hnil
        rw [cfbEncryptBytes, cfbDecryptBytes]
        simp
      · have hplen : 0 < p.length := List.length_pos.mpr hnil
        rw [cfbEncryptBytes, dif_neg hnil]
        set c := List.zipWith (fun a b => a ^^^ b) (p.take 16) (E prev) with hc
        have hclen : c.length = min 16 p.length := by
          rw [hc]
          simp [hE prev]
        have hcnil : c ≠ [] := by
          intro hx
          rw [hx] at hclen
          simp only [List.length_nil] at hclen
          omega
        set e := cfbEncryptBytes E c (p.drop 16) with he
        have htake : (c ++ e).take 16 = c := by
          by_cases h16 : 16 ≤ p.length
          · have : c.length = 16 := by omega
            rw [List.take_append_eq_append_take, this]
            simp [List.take_of_length_le (le_of_eq this)]
          · have hdrop : p.drop 16 = [] := List.drop_eq_nil_of_le (by omega)
            have : e = [] := by rw [he, hdrop, cfbEncryptBytes_nil]
            rw [this, List.append_nil]
            exact List.take_of_length_le (by omega)
        have hdrop2 : (c ++ e).drop 16 = e := by
          by_cases h16 : 16 ≤ p.length
          · have hl : c.length = 16 := by omega
            rw [List.drop_append_eq_append_drop, hl]
            simp [List.drop_eq_nil_of_le (le_of_eq hl)]
          · have hdrop : p.drop 16 = [] := List.drop_eq_nil_of_le (by omega)
            have : e = [] := by rw [he, hdrop, cfbEncryptBytes_nil]
            rw [this, List.append_nil]
            exact List.drop_eq_nil_of_le (by omega)
        rw [cfbDecryptBytes, dif_neg (by simp [hcnil] : ¬(c ++ e) = []),
          htake, hdrop2, hc]
        rw [zipWith_xor_cancel _ _ (by simp [hE prev])]
        rw [← hc, ih c (p.drop 16) (by simp; omega)]
        exact List.take_append_drop 16 p

theorem mem_zipWith_xor_lt :
    ∀ (a b : List Nat), (∀ x ∈ a, x < 256) → (∀ y ∈ b, y < 256) →
      ∀ z ∈ List.zipWith (fun x y => x ^^^ y) a b, z < 256 := by
  intro a
  induction a with
  | nil => intro b _ _ z hz; simp at hz
  | cons x a' ih =>
      intro b ha hb z hz
      cases b with
      | nil => simp at hz
      | cons y b' =>
          simp only [List.zipWith_cons_cons, List.mem_cons] at hz
          rcases hz with hz | hz
          · subst hz
            exact Nat.xor_lt_two_pow (n := 8) (ha x (by simp)) (hb y (by simp))
          · exact ih b' (fun u hu => ha u (by simp [hu]))
              (fun u hu => hb u (by simp [hu])) z hz

theorem mem_cfbEncryptBytes_lt (E : List Nat → List Nat)
    (hE : ∀ x, ∀ b ∈ E x, b < 256) :
    ∀ (n : Nat) (prev p : List Nat), p.length ≤ n →
      (∀ b ∈ p, b < 256) → ∀ b ∈ cfbEncryptBytes E prev p, b < 256 := by
  intro n
  induction n with
  | zero =>
      intro prev p hp _
      have : p = [] := List.length_eq_zero.mp (Nat.le_zero.mp hp)
      subst this
      rw [cfbEncryptBytes_nil]
      simp
  | succ m ih =>
      intro prev p hp hbytes b hb
      by_cases hnil : p = []
      · subst hnil; rw [cfbEncryptBytes_nil] at hb; simp at hb
      · have hplen : 0 < p.length := List.length_pos.mpr hnil
        rw [cfbEncryptBytes, dif_neg hnil, List.mem_append] at hb
        rcases hb with hb | hb
        · exact mem_zipWith_xor_lt _ _
            (fun x hx => hbytes x (List.mem_of_mem_take hx)) (hE prev) b hb
        · exact ih _ _ (by simp; omega)
            (fun z hz => hbytes z (List.mem_of_mem_drop hz)) b hb

theorem deriveKey_length (k : List Nat) : (deriveKey k).length = 32 := by
  unfold deriveKey
  split
  · simp; omega
  · next h => simp; omega

theorem hostDecrypt_some (E : List Nat → List Nat) (cs : List Char)
    (bytes : List Nat) (h : b64DecodeChars cs = some bytes) :
    hostDecrypt E cs =
      if bytes.length < 16 then .error .tooShort
      else .ok (cfbDecryptBytes E (bytes.take 16) (bytes.drop 16)) := by
  unfold hostDecrypt
  rw [h]

/-- C3: with the AES-256 key derived from the configured key string's bytes
by zero-padding on the right to 32 bytes or truncating to 32 bytes (that
derived key always has 32 bytes), and for any 16-byte IV chosen during
encryption, `decrypt (encrypt p) = p` byte for byte.  The AES block
permutation is Go-library code outside this repository; it appears as the
family `AES`, keyed by the derived key, constrained to produce 16-byte
blocks of bytes. -/
theorem crypto_roundtrip (AES : List Nat → List Nat → List Nat) (k iv p : List Nat)
    (hlen : ∀ x, (AES (deriveKey k) x).length = 16)
    (hbytes : ∀ x, ∀ b ∈ AES (deriveKey k) x, b < 256)
    (hiv : iv.length = 16) (hivb : ∀ b ∈ iv, b < 256)
    (hp : ∀ b ∈ p, b < 256) :
    (deriveKey k).length = 32 ∧
    hostDecrypt (AES (deriveKey k)) (hostEncrypt (AES (deriveKey k)) iv p) =
      .ok p := by
  refine ⟨deriveKey_length k, ?_⟩
  have hioc : ∀ b ∈ iv ++ cfbEncryptBytes (AES (deriveKey k)) iv p, b < 256 := by
    intro b hb
    rcases List.mem_append.mp hb with hb | hb
    · exact hivb b hb
    · exact mem_cfbEncryptBytes_lt _ hbytes p.length iv p le_rfl hp b hb
  rw [hostEncrypt,
    hostDecrypt_some _ _ _ (b64_roundtrip _ hioc)]
  have hlen2 : (iv ++ cfbEncryptBytes (AES (deriveKey k)) iv p).length =
      16 + (cfbEncryptBytes (AES (deriveKey k)) iv p).length := by
    simp [hiv]
  rw [if_neg (by omega)]
  have htake : (iv ++ cfbEncryptBytes (AES (deriveKey k)) iv p).take 16 = iv := by
    rw [List.take_append_eq_append_take, hiv]
    simp [List.take_of_length_le (le_of_eq hiv)]
  have hdrop : (iv ++ cfbEncryptBytes (AES (deriveKey k)) iv p).drop 16 =
      cfbEncryptBytes (AES (deriveKey k)) iv p := by
    rw [List.drop_append_eq_append_drop, hiv]
    simp [List.drop_eq_nil_of_le (le_of_eq hiv)]
  rw [htake, hdrop, cfb_roundtrip_bounded _ hlen p.length iv p le_rfl]

/-- Witness for C3 at key `"key"`, a constant 16-byte block function, the
all-zero IV, and the plaintext `"hunter2"`. -/
theorem crypto_roundtrip_witness :
    hostDecrypt ((fun _ _ => List.replicate 16 0) (deriveKey [107, 101, 121]))
      (hostEncrypt ((fun _ _ => List.replicate 16 0) (deriveKey [107, 101, 121]))
        (List.replicate 16 0) [104, 117, 110, 116, 101, 114, 50]) =
      .ok [104, 117, 110, 116, 101, 114, 50] :=
  (crypto_roundtrip (fun _ _ => List.replicate 16 0) [107, 101, 121]
    (List.replicate 16 0) [104, 117, 110, 116, 101, 114, 50]
    (fun _ => by simp)
    (fun _ b hb => by simp at hb; omega)
    (by simp)
    (fun b hb => by simp at hb; omega)
    (by decide)).2

/-- Counterexample to C6: the password of `hostShortCipher` suffers a
non-base64 decryption failure (`ciphertext too short`), yet `GetAllHosts`
does not return an error — it returns the host unchanged, because the Go
loop `continue`s over per-host decryption failures instead of surfacing
them. -/
theorem getAllHosts_swallows_decrypt_error :
    (DecryptSensitiveData zeroBlockFun hostShortCipher).2 = false ∧
    GetAllHosts zeroBlockFun [hostShortCipher] = [hostShortCipher] := by
  constructor <;> decide

/-- C6 (amended): per non-empty secret field, a value the URL-safe base64
decoder rejects is passed through unchanged and the field decryption
succeeds, while base64-valid data shorter than 16 bytes surfaces an error;
`"$$$$"` is such a rejected value.  `GetHost` turns a surfaced field error
into a failure of the whole call, but `GetAllHosts` swallows per-host
decryption failures: every non-deleted host is returned (as far as its
fields were processed) even when its decryption failed. -/
theorem decrypt_tolerance_spec :
    (∀ (E : List Nat → List Nat) (v : List Char), v ≠ [] →
        b64DecodeChars v = none → decryptFieldTolerant E v = some v) ∧
    (∀ (E : List Nat → List Nat) (v : List Char) (bs : List Nat), v ≠ [] →
        b64DecodeChars v = some bs → bs.length < 16 →
        decryptFieldTolerant E v = none) ∧
    b64DecodeChars "$$$$".toList = none ∧
    (∀ (E : List Nat → List Nat) (hosts : List Host) (id0 : Nat) (h : Host),
        hostsFind hosts id0 = some h →
        (GetHost E hosts id0 = none ↔ (DecryptSensitiveData E h).2 = false)) ∧
    (∀ (E : List Nat → List Nat) (hosts : List Host) (h : Host),
        h ∈ hosts → h.deleted = false →
        (DecryptSensitiveData E h).1 ∈ GetAllHosts E hosts) := by
  refine ⟨?_, ?_, by decide, ?_, ?_⟩
  · intro E v hne hdec
    rw [decryptFieldTolerant, if_neg hne]
    unfold hostDecrypt
    rw [hdec]
  · intro E v bs hne hdec hlt
    rw [decryptFieldTolerant, if_neg hne]
    unfold hostDecrypt
    rw [hdec]
    simp only [if_pos hlt]
  · intro E hosts id0 h hfind
    rw [GetHost, hfind]
    cases hr : (DecryptSensitiveData E h).2 <;> simp [hr]
  · intro E hosts h hmem hdel
    rw [GetAllHosts]
    exact List.mem_map_of_mem _ (List.mem_filter.mpr ⟨hmem, by simp [hdel]⟩)

/-- Witness for C6 (amended) at concrete inputs: the non-base64 string
`"$$$$"` passes through; the too-short ciphertext `"AAAA"` surfaces an
error; `GetHost` fails on `hostShortCipher` while `GetAllHosts` keeps it. -/
theorem decrypt_tolerance_spec_witness :
    decryptFieldTolerant zeroBlockFun "$$$$".toList = some "$$$$".toList ∧
    decryptFieldTolerant zeroBlockFun "AAAA".toList = none ∧
    (GetHost zeroBlockFun [hostShortCipher] 1 = none ↔
      (DecryptSensitiveData zeroBlockFun hostShortCipher).2 = false) ∧
    (DecryptSensitiveData zeroBlockFun hostShortCipher).1 ∈
      GetAllHosts zeroBlockFun [hostShortCipher] := by
  refine ⟨?_, ?_, ?_, ?_⟩
  · exact decrypt_tolerance_spec.1 zeroBlockFun "$$$$".toList (by decide) (by decide)
  · exact decrypt_tolerance_spec.2.1 zeroBlockFun "AAAA".toList [0, 0, 0]
      (by decide) (by decide) (by decide)
  · exact decrypt_tolerance_spec.2.2.2.1 zeroBlockFun [hostShortCipher] 1
      hostShortCipher (by decide)
  · exact decrypt_tolerance_spec.2.2.2.2 zeroBlockFun [hostShortCipher]
      hostShortCipher (by decide) (by decide)

/-- C4: on a well-formed method-selection message the server replies
`05 00` when `0x00` is offered and `05 FF` (then fails) otherwise; a
well-formed request with a command other than CONNECT is answered with
reply code `0x07`; an unknown address type with `0x08`; a dial failure of
the parsed destination with `0x04`; and on dial success the single reply
`05 00 00 01 00 00 00 00 00 00` is written before the relay starts.  The
final conjunct checks the parser on the literal scenario-S2 request:
IPv4 `127.0.0.1`, port `0x0050` big-endian. -/
theorem socks5_handshake_spec :
    (∀ buf : List Nat, buf.headD 0 = 5 → 2 + buf.getD 1 0 ≤ buf.length →
      (0 ∈ (buf.drop 2).take (buf.getD 1 0) → handleAuth buf = ([[5, 0]], true)) ∧
      (0 ∉ (buf.drop 2).take (buf.getD 1 0) →
        handleAuth buf = ([[5, 255]], false))) ∧
    (∀ (dial : Socks5Dest → Bool) (buf : List Nat), buf.headD 0 = 5 →
      4 ≤ buf.length → buf.getD 1 0 ≠ 1 →
      handleRequest dial buf = ([[5, 7, 0, 1, 0, 0, 0, 0, 0, 0]], .failed)) ∧
    (∀ (dial : Socks5Dest → Bool) (buf : List Nat), buf.headD 0 = 5 →
      4 ≤ buf.length → buf.getD 1 0 = 1 → parseDest buf = .unsupported →
      handleRequest dial buf = ([[5, 8, 0, 1, 0, 0, 0, 0, 0, 0]], .failed)) ∧
    (∀ (dial : Socks5Dest → Bool) (buf : List Nat) (d : Socks5Dest),
      buf.headD 0 = 5 → 4 ≤ buf.length → buf.getD 1 0 = 1 →
      parseDest buf = .ok d →
      (dial d = false →
        handleRequest dial buf = ([[5, 4, 0, 1, 0, 0, 0, 0, 0, 0]], .failed)) ∧
      (dial d = true →
        handleRequest dial buf =
          ([[5, 0, 0, 1, 0, 0, 0, 0, 0, 0]], .relayStarted d))) ∧
    parseDest [5, 1, 0, 1, 127, 0, 0, 1, 0, 80] = .ok (.ipv4 127 0 0 1 80) := by
  refine ⟨?_, ?_, ?_, ?_, by decide⟩
  · intro buf hv hn
    have hng : ¬(buf.length < 2 ∨ buf.headD 0 ≠ 5) := by
      rintro (h | h)
      · omega
      · exact h hv
    have h2 : ¬(buf.length < 2 + buf.getD 1 0) := by omega
    constructor
    · intro hmem
      simp only [handleAuth]
      rw [if_neg hng, if_neg h2, if_pos hmem]
    · intro hmem
      simp only [handleAuth]
      rw [if_neg hng, if_neg h2, if_neg hmem]
  · intro dial buf hv hn hc
    have hng : ¬(buf.length < 4 ∨ buf.headD 0 ≠ 5) := by
      rintro (h | h)
      · omega
      · exact h hv
    simp only [handleRequest]
    rw [if_neg hng, if_pos hc]
  · intro dial buf hv hn hc hp
    have hng : ¬(buf.length < 4 ∨ buf.headD 0 ≠ 5) := by
      rintro (h | h)
      · omega
      · exact h hv
    simp only [handleRequest]
    rw [if_neg hng, if_neg (fun hx => hx hc), hp]
  · intro dial buf d hv hn hc hp
    have hng : ¬(buf.length < 4 ∨ buf.headD 0 ≠ 5) := by
      rintro (h | h)
      · omega
      · exact h hv
    constructor
    · intro hd
      simp only [handleRequest]
      rw [if_neg hng, if_neg (fun hx => hx hc), hp]
      simp [hd]
    · intro hd
      simp only [handleRequest]
      rw [if_neg hng, if_neg (fun hx => hx hc), hp]
      simp [hd]

/-- Witness for C4: scenario S2 (`05 01 00` then a CONNECT to
`127.0.0.1:80` with an always-successful dial) and scenario S3
(`05 01 02`, only password auth offered). -/
theorem socks5_handshake_spec_witness :
    handleAuth [5, 1, 0] = ([[5, 0]], true) ∧
    handleAuth [5, 1, 2] = ([[5, 255]], false) ∧
    handleRequest (fun _ => true) [5, 1, 0, 1, 127, 0, 0, 1, 0, 80] =
      ([[5, 0, 0, 1, 0, 0, 0, 0, 0, 0]], .relayStarted (.ipv4 127 0 0 1 80)) := by
  refine ⟨?_, ?_, ?_⟩
  · exact (socks5_handshake_spec.1 [5, 1, 0] (by decide) (by decide)).1 (by decide)
  · exact (socks5_handshake_spec.1 [5, 1, 2] (by decide) (by decide)).2 (by decide)
  · exact ((socks5_handshake_spec.2.2.2.1 (fun _ => true)
      [5, 1, 0, 1, 127, 0, 0, 1, 0, 80] (.ipv4 127 0 0 1 80)
      (by decide) (by decide) (by decide) (by decide)).2 rfl)

/-! ## Lemmas: the tunnel engine -/

theorem tunnelsGetByID_some {ts : List Tunnel} {id : Nat} {t : Tunnel}
    (h : tunnelsGetByID ts id = some t) :
    t.id = id ∧ t.deleted = false ∧ t ∈ ts := by
  unfold tunnelsGetByID at h
  have hmem := List.mem_of_find?_eq_some h
  have hp := List.find?_some h
  simp only [Bool.and_eq_true, Bool.not_eq_true', beq_iff_eq] at hp
  exact ⟨hp.2, hp.1, hmem⟩

theorem storeListener_of_absent {st : EngineState} {id : Nat}
    (h : lookupActive st id = none) : storeListener st id = st := by
  unfold lookupActive at h
  rw [Option.map_eq_none'] at h
  rw [List.find?_eq_none] at h
  unfold storeListener
  have hmap : st.activeTunnels.map (fun e =>
      if e.1 == id then (e.1, { e.2 with listenerSet := true }) else e) =
      st.activeTunnels := by
    calc st.activeTunnels.map (fun e =>
          if e.1 == id then (e.1, { e.2 with listenerSet := true }) else e)
        = st.activeTunnels.map (fun e => e) :=
          List.map_congr_left (fun e he => by rw [if_neg (by simpa using h e he)])
      _ = st.activeTunnels := by simp
  rw [hmap]

theorem addLog_activeTunnels (st : EngineState) (id : Nat) (ev : String) :
    (addLog st id ev).activeTunnels = st.activeTunnels := rfl

theorem setStatusState_activeTunnels (st : EngineState) (id : Nat) (s : String) :
    (setStatusState st id s).activeTunnels = st.activeTunnels := rfl

theorem registerActive_activeTunnels (st : EngineState) (id : Nat) (t : Tunnel) :
    (registerActive st id t).activeTunnels = st.activeTunnels ++
      [(id, { tunnel := t, sshClientSet := true, listenerSet := false })] := rfl

theorem regNil_setStatus {st : EngineState} {id : Nat} {s : String}
    (h : RegistryNilListeners st) :
    RegistryNilListeners (setStatusState st id s) := h

theorem regNil_addLog {st : EngineState} {id : Nat} {e : String}
    (h : RegistryNilListeners st) : RegistryNilListeners (addLog st id e) := h

/-- When no registry entry exists for the tunnel, a successful per-kind
start routine leaves the state unchanged (the listener write hits no
entry). -/
theorem startDispatch_ok_state {env : StartEnv} {st : EngineState}
    {tunnel : Tunnel} {st1 : EngineState}
    (hnone : lookupActive st tunnel.id = none)
    (hok : (if tunnel.type = "local_forward" then startLocalForward env st tunnel
        else if tunnel.type = "remote_forward" then startRemoteForward env st tunnel
        else startDynamicForward env st tunnel) = .ok st1) : st1 = st := by
  have hstore : storeListener st tunnel.id = st := storeListener_of_absent hnone
  unfold startLocalForward startRemoteForward startDynamicForward at hok
  split at hok
  · split at hok
    · rw [← hstore]; exact (Except.ok.injEq _ _).mp hok.symm
    · cases hok
  · split at hok
    · split at hok
      · rw [← hstore]; exact (Except.ok.injEq _ _).mp hok.symm
      · cases hok
    · split at hok
      · rw [← hstore]; exact (Except.ok.injEq _ _).mp hok.symm
      · cases hok

theorem regNil_start {env : StartEnv} {st : EngineState} {id : Nat}
    (h : RegistryNilListeners st) :
    RegistryNilListeners (StartTunnel env st id).2 := by
  unfold StartTunnel
  cases hfind : tunnelsGetByID st.tunnels id with
  | none => exact h
  | some tunnel =>
      by_cases hrun : (lookupActive st id).isSome
      · simp only [hrun, if_true]; exact h
      · simp only [hrun, if_false]
        by_cases hhost : env.getHostOk tunnel.hostID = false
        · simp only [hhost, if_true]; exact h
        · simp only [hhost, if_false]
          by_cases hdial : env.sshDialOk tunnel.hostID = false
          · simp only [hdial, if_true]; exact h
          · simp only [hdial, if_false]
            by_cases hty : tunnel.type ≠ "local_forward" ∧
                tunnel.type ≠ "remote_forward" ∧ tunnel.type ≠ "dynamic"
            · simp only [if_pos hty]; exact h
            · simp only [if_neg hty]
              have hnone : lookupActive st id = none := by
                cases hx : lookupActive st id with
                | none => rfl
                | some a => rw [hx] at hrun; simp at hrun
              have hid : tunnel.id = id := (tunnelsGetByID_some hfind).1
              have hdisp : ∀ st1 : EngineState,
                  (if tunnel.type = "local_forward" then startLocalForward env st tunnel
                   else if tunnel.type = "remote_forward" then startRemoteForward env st tunnel
                   else startDynamicForward env st tunnel) = .ok st1 → st1 = st :=
                fun st1 hok =>
                  startDispatch_ok_state (by rw [hid]; exact hnone) hok
              cases hd : (if tunnel.type = "local_forward" then startLocalForward env st tunnel
                   else if tunnel.type = "remote_forward" then startRemoteForward env st tunnel
                   else startDynamicForward env st tunnel) with
              | error e => exact h
              | ok st1 =>
                  have := hdisp st1 hd
                  subst this
                  intro e he
                  simp [addLog_activeTunnels, setStatusState_activeTunnels,
                    registerActive_activeTunnels, hrun] at he
                  rcases he with h3 | h3
                  · exact h e h3
                  · simp [h3]

theorem regNil_stop {st : EngineState} {id : Nat}
    (h : RegistryNilListeners st) :
    RegistryNilListeners (StopTunnel st id).2.1 := by
  unfold StopTunnel
  cases hfind : lookupActive st id with
  | none => exact h
  | some a =>
      intro e he
      simp only [addLog_activeTunnels, setStatusState_activeTunnels] at he
      simp only [List.mem_filter] at he
      exact h e he.1

theorem regNil_createTunnel {netL : String → Nat → Bool} {st st' : EngineState}
    {t tc : Tunnel} (hok : CreateTunnel netL st t = .ok (st', tc))
    (h : RegistryNilListeners st) : RegistryNilListeners st' := by
  unfold CreateTunnel at hok
  split at hok
  · cases hok
  · split at hok
    · cases hok
    · split at hok
      · cases hok
      · rw [Except.ok.injEq, Prod.mk.injEq] at hok
        intro e he
        rw [← hok.1] at he
        exact h e he

theorem regNil_createMulti (svcs : List LocalServiceMapping)
    (netL : String → Nat → Bool) (st : EngineState) (hostID : Nat)
    (h : RegistryNilListeners st) :
    RegistryNilListeners (CreateMultipleLocalForwards netL st hostID svcs).1 := by
  induction svcs generalizing st with
  | nil => exact h
  | cons svc rest ih =>
      unfold CreateMultipleLocalForwards
      split
      · exact ih st h
      · next st1 tc hc => exact ih st1 (regNil_createTunnel hc h)

theorem regNil_createDyn {netL : String → Nat → Bool} {st st' : EngineState}
    {hostID : Nat} {name description : String} {autoStart : Bool} {tc : Tunnel}
    (h0 : CreateDynamicSOCKS5Tunnel netL st hostID name description autoStart =
      .ok (st', tc))
    (h : RegistryNilListeners st) : RegistryNilListeners st' := by
  unfold CreateDynamicSOCKS5Tunnel at h0
  split at h0
  · cases h0
  · exact regNil_createTunnel h0 h

theorem regNil_update {env : StartEnv} {st : EngineState} {t : Tunnel}
    (h : RegistryNilListeners st) :
    RegistryNilListeners (UpdateTunnel env st t).2 := by
  unfold UpdateTunnel
  split
  · exact h
  · next t1 hval =>
      split
      · split
        · next e st1 tr heq =>
            have h2 := @regNil_stop st t1.id h
            rw [heq] at h2
            exact h2
        · next st1 tr heq =>
            have h2 := @regNil_stop st t1.id h
            rw [heq] at h2
            exact regNil_start h2
      · exact h

theorem regNil_delete {st : EngineState} {id : Nat}
    (h : RegistryNilListeners st) :
    RegistryNilListeners (DeleteTunnel st id) :=
  @regNil_stop st id h

theorem regNil_restart {env : StartEnv} {st : EngineState} {id : Nat}
    (h : RegistryNilListeners st) :
    RegistryNilListeners (RestartTunnel env st id).2 := by
  unfold RestartTunnel
  split
  · next e st1 tr heq =>
      have h2 := @regNil_stop st id h
      rw [heq] at h2
      split
      · exact regNil_start h2
      · exact h2
  · next st1 tr heq =>
      have h2 := @regNil_stop st id h
      rw [heq] at h2
      exact regNil_start h2

theorem foldl_state_inv {α : Type} {P : EngineState → Prop}
    {f : EngineState → α → EngineState}
    (hf : ∀ s a, P s → P (f s a)) :
    ∀ (l : List α) (s : EngineState), P s → P (l.foldl f s) := by
  intro l
  induction l with
  | nil => intro s h; exact h
  | cons a t ih => intro s h; exact ih _ (hf s a h)

theorem regNil_stopAll {st : EngineState} (h : RegistryNilListeners st) :
    RegistryNilListeners (StopAllTunnels st) :=
  foldl_state_inv (fun s a hs => @regNil_stop s a hs) _ st h

theorem regNil_auto {env : StartEnv} {st : EngineState}
    (h : RegistryNilListeners st) :
    RegistryNilListeners (StartAutoTunnels env st) :=
  foldl_state_inv (fun s a hs => @regNil_start env s a.id hs) _ st h

/-- C10: in every reachable engine state, the listener field of every
handle in the active-tunnels registry is `nil`.  The per-kind start
routines store the freshly bound listener into a registry entry only when
one already exists, and `StartTunnel` inserts the handle (with the
listener unset) only after the start routine has returned — so no
registered handle ever carries a listener. -/
theorem registry_listener_always_nil (st : EngineState) (h : Reachable st) :
    ∀ e ∈ st.activeTunnels, e.2.listenerSet = false := by
  induction h with
  | init ts => intro e he; simp at he
  | createStep hr hok ih => exact regNil_createTunnel hok ih
  | createMultiStep hr ih => exact regNil_createMulti _ _ _ _ ih
  | createDynStep hr hok ih => exact regNil_createDyn hok ih
  | updateStep hr ih => exact regNil_update ih
  | deleteStep hr ih => exact regNil_delete ih
  | startStep hr ih => exact regNil_start ih
  | stopStep hr ih => exact regNil_stop ih
  | restartStep hr ih => exact regNil_restart ih
  | stopAllStep hr ih => exact regNil_stopAll ih
  | autoStep hr ih => exact regNil_auto ih

/-- Witness for C10: in the state reached by starting `demoTunnel`, every
registered handle has a `nil` listener. -/
theorem registry_listener_always_nil_witness :
    ((StartTunnel demoEnv demoState 1).2.activeTunnels.all
      (fun e => e.2.listenerSet == false)) = true := by
  have h := registry_listener_always_nil (StartTunnel demoEnv demoState 1).2
    (Reachable.startStep (Reachable.init [demoTunnel]))
  rw [List.all_eq_true]
  intro e he
  simpa using h e he

/-- C1 (evaluation at the failing input): starting `demoTunnel` and then
stopping it succeeds, but the effect trace of `StopTunnel` contains no
listener close — the handle registered by `StartTunnel` never holds the
listener, so the port is released only through context cancellation, not
synchronously as the contract orders.  Stopping a tunnel with no
registered handle fails, as claimed. -/
theorem stopTunnel_trace_demo :
    (StartTunnel demoEnv demoState 1).1 = none ∧
    (StopTunnel (StartTunnel demoEnv demoState 1).2 1).1 = none ∧
    (StopTunnel (StartTunnel demoEnv demoState 1).2 1).2.2 =
      [StopEffect.cancelCtx, StopEffect.closeSSH, StopEffect.sleep200,
       StopEffect.setInactive, StopEffect.logStopEvent] ∧
    StopEffect.closeListener ∉
      (StopTunnel (StartTunnel demoEnv demoState 1).2 1).2.2 ∧
    (StopTunnel demoState 999).1 = some "tunnel is not running" := by
  refine ⟨by decide, by decide, by decide, by decide, by decide⟩

theorem tunnelsGetByID_updateStatus (ts : List Tunnel) (id : Nat) (s : String) :
    tunnelsGetByID (updateStatus ts id s) id =
      (tunnelsGetByID ts id).map (fun t => { t with status := s }) := by
  induction ts with
  | nil => rfl
  | cons a ts ih =>
      simp only [updateStatus, tunnelsGetByID, List.map_cons] at ih ⊢
      by_cases hd : (!a.deleted && a.id == id) = true
      · rw [if_pos hd,
          List.find?_cons_of_pos (p := fun t => !t.deleted && t.id == id)
            (a := ({ a with status := s } : Tunnel)) _ hd,
          List.find?_cons_of_pos (p := fun t => !t.deleted && t.id == id)
            (a := a) _ hd]
        rfl
      · rw [if_neg hd,
          List.find?_cons_of_neg (p := fun t => !t.deleted && t.id == id)
            (a := a) _ hd,
          List.find?_cons_of_neg (p := fun t => !t.deleted && t.id == id)
            (a := a) _ hd]
        exact ih

theorem lookupActive_setStatus (st : EngineState) (id0 id1 : Nat) (s : String) :
    lookupActive (setStatusState st id0 s) id1 = lookupActive st id1 := rfl

theorem lookupActive_addLog (st : EngineState) (id0 id1 : Nat) (e : String) :
    lookupActive (addLog st id0 e) id1 = lookupActive st id1 := rfl

/-- C2 (amended): `StartTunnel` sets the persisted status to `error` and
appends an `error` log event only on the SSH-dial and per-kind bind
failure paths, leaving no handle registered; on success it registers the
handle, sets status `active` and appends a `start` event.  The remaining
failure paths — tunnel lookup, already running, host resolution/decryption,
unsupported kind — return an error with the persisted status, logs and
registry untouched (in the already-running case the pre-existing handle
remains registered). -/
theorem startTunnel_effects :
    (∀ (env : StartEnv) (st : EngineState) (id0 : Nat),
      (StartTunnel env st id0).1 = none →
        (lookupActive (StartTunnel env st id0).2 id0).isSome = true ∧
        (∃ t, tunnelsGetByID st.tunnels id0 = some t ∧
          tunnelsGetByID (StartTunnel env st id0).2.tunnels id0 =
            some { t with status := "active" }) ∧
        (StartTunnel env st id0).2.logs =
          st.logs ++ [{ tunnelID := id0, eventType := "start" }]) ∧
    (∀ (env : StartEnv) (st : EngineState) (id0 : Nat) (t : Tunnel),
      tunnelsGetByID st.tunnels id0 = some t →
      lookupActive st id0 = none →
      env.getHostOk t.hostID = true →
      env.sshDialOk t.hostID = false →
        (StartTunnel env st id0).1.isSome = true ∧
        tunnelsGetByID (StartTunnel env st id0).2.tunnels id0 =
          some { t with status := "error" } ∧
        (StartTunnel env st id0).2.logs =
          st.logs ++ [{ tunnelID := id0, eventType := "error" }] ∧
        lookupActive (StartTunnel env st id0).2 id0 = none) ∧
    (∀ (env : StartEnv) (st : EngineState) (id0 : Nat) (t : Tunnel),
      tunnelsGetByID st.tunnels id0 = some t →
      lookupActive st id0 = none →
      env.getHostOk t.hostID = true →
      env.sshDialOk t.hostID = true →
      t.type = "local_forward" →
      env.netListen t.localAddress t.localPort = false →
        (StartTunnel env st id0).1.isSome = true ∧
        tunnelsGetByID (StartTunnel env st id0).2.tunnels id0 =
          some { t with status := "error" } ∧
        (StartTunnel env st id0).2.logs =
          st.logs ++ [{ tunnelID := id0, eventType := "error" }] ∧
        lookupActive (StartTunnel env st id0).2 id0 = none) ∧
    (∀ (env : StartEnv) (st : EngineState) (id0 : Nat),
      tunnelsGetByID st.tunnels id0 = none →
        StartTunnel env st id0 = (some "failed to get tunnel", st)) ∧
    (∀ (env : StartEnv) (st : EngineState) (id0 : Nat),
      (lookupActive st id0).isSome = true →
      (tunnelsGetByID st.tunnels id0).isSome = true →
        StartTunnel env st id0 = (some "tunnel is already running", st)) ∧
    (∀ (env : StartEnv) (st : EngineState) (id0 : Nat) (t : Tunnel),
      tunnelsGetByID st.tunnels id0 = some t →
      lookupActive st id0 = none →
      env.getHostOk t.hostID = false →
        StartTunnel env st id0 = (some "failed to get host", st)) ∧
    (∀ (env : StartEnv) (st : EngineState) (id0 : Nat) (t : Tunnel),
      tunnelsGetByID st.tunnels id0 = some t →
      lookupActive st id0 = none →
      env.getHostOk t.hostID = true →
      env.sshDialOk t.hostID = true →
      t.type ≠ "local_forward" → t.type ≠ "remote_forward" → t.type ≠ "dynamic" →
        StartTunnel env st id0 = (some "unsupported tunnel type", st)) := by
  refine ⟨?_, ?_, ?_, ?_, ?_, ?_, ?_⟩
  · -- success
    intro env st id0 hnone
    unfold StartTunnel at hnone ⊢
    cases hfind : tunnelsGetByID st.tunnels id0 with
    | none => rw [hfind] at hnone; cases hnone
    | some tunnel =>
        rw [hfind] at hnone
        dsimp only [] at hnone ⊢
        have hid : tunnel.id = id0 := (tunnelsGetByID_some hfind).1
        by_cases hrun : (lookupActive st id0).isSome = true
        · rw [if_pos hrun] at hnone; simp at hnone
        · rw [if_neg hrun] at hnone ⊢
          by_cases hhost : env.getHostOk tunnel.hostID = false
          · rw [if_pos hhost] at hnone; simp at hnone
          · rw [if_neg hhost] at hnone ⊢
            by_cases hdial : env.sshDialOk tunnel.hostID = false
            · rw [if_pos hdial] at hnone; simp at hnone
            · rw [if_neg hdial] at hnone ⊢
              by_cases hty : tunnel.type ≠ "local_forward" ∧
                  tunnel.type ≠ "remote_forward" ∧ tunnel.type ≠ "dynamic"
              · rw [if_pos hty] at hnone; simp at hnone
              · rw [if_neg hty] at hnone ⊢
                have hlnone : lookupActive st id0 = none := by
                  cases hx : lookupActive st id0 with
                  | none => rfl
                  | some a => rw [hx] at hrun; simp at hrun
                cases hd : (if tunnel.type = "local_forward"
                    then startLocalForward env st tunnel
                    else if tunnel.type = "remote_forward"
                    then startRemoteForward env st tunnel
                    else startDynamicForward env st tunnel) with
                | error e => rw [hd] at hnone; simp at hnone
                | ok st1 =>
                    dsimp only []
                    have hst1 : st1 = st :=
                      startDispatch_ok_state (by rw [hid]; exact hlnone) hd
                    subst hst1
                    refine ⟨?_, ⟨tunnel, rfl, ?_⟩, ?_⟩
                    · rw [lookupActive_addLog, lookupActive_setStatus]
                      have hf : List.find? (fun e => e.1 == id0)
                          st1.activeTunnels = none := by
                        have hx := hlnone
                        unfold lookupActive at hx
                        exact Option.map_eq_none'.mp hx
                      unfold lookupActive registerActive
                      simp only [List.find?_append, hf]
                      simp
                    · show tunnelsGetByID (updateStatus st1.tunnels id0 "active")
                        id0 = _
                      rw [tunnelsGetByID_updateStatus]
                      have : tunnelsGetByID st1.tunnels id0 = some tunnel := hfind
                      rw [this]
                      rfl
                    · rfl
  · -- ssh dial failure
    intro env st id0 t hfind hlnone hhost hdial
    unfold StartTunnel
    rw [hfind]
    dsimp only []
    have hrun : ¬((lookupActive st id0).isSome = true) := by rw [hlnone]; simp
    rw [if_neg hrun, if_neg (by rw [hhost]; simp), if_pos (by rw [hdial])]
    refine ⟨rfl, ?_, rfl, hlnone⟩
    show tunnelsGetByID (updateStatus st.tunnels id0 "error") id0 = _
    rw [tunnelsGetByID_updateStatus, hfind]
    rfl
  · -- bind failure (local_forward)
    intro env st id0 t hfind hlnone hhost hdial hty hbind
    unfold StartTunnel
    rw [hfind]
    dsimp only []
    have hrun : ¬((lookupActive st id0).isSome = true) := by rw [hlnone]; simp
    rw [if_neg hrun, if_neg (by rw [hhost]; simp), if_neg (by rw [hdial]; simp),
      if_neg (by rw [hty]; simp)]
    have hdisp : (if t.type = "local_forward" then startLocalForward env st t
        else if t.type = "remote_forward" then startRemoteForward env st t
        else startDynamicForward env st t) = .error "failed to listen" := by
      rw [if_pos hty]
      unfold startLocalForward
      rw [hbind]
      rfl
    rw [hdisp]
    refine ⟨rfl, ?_, rfl, hlnone⟩
    show tunnelsGetByID (updateStatus st.tunnels id0 "error") id0 = _
    rw [tunnelsGetByID_updateStatus, hfind]
    rfl
  · -- lookup failure
    intro env st id0 hfind
    unfold StartTunnel
    rw [hfind]
  · -- already running
    intro env st id0 hrun hfind
    unfold StartTunnel
    cases hf : tunnelsGetByID st.tunnels id0 with
    | none => rw [hf] at hfind; cases hfind
    | some t => dsimp only []; rw [if_pos hrun]
  · -- host resolution failure
    intro env st id0 t hfind hlnone hhost
    unfold StartTunnel
    rw [hfind]
    dsimp only []
    have hrun : ¬((lookupActive st id0).isSome = true) := by rw [hlnone]; simp
    rw [if_neg hrun, if_pos (by rw [hhost])]
  · -- unsupported kind
    intro env st id0 t hfind hlnone hhost hdial h1 h2 h3
    unfold StartTunnel
    rw [hfind]
    dsimp only []
    have hrun : ¬((lookupActive st id0).isSome = true) := by rw [hlnone]; simp
    rw [if_neg hrun, if_neg (by rw [hhost]; simp), if_neg (by rw [hdial]; simp),
      if_pos ⟨h1, h2, h3⟩]

/-- Counterexample to C2: starting an already-running tunnel returns an
error, yet the persisted status remains `active` (not `error`), no
`error` log event is appended, and the pre-existing handle stays
registered. -/
theorem startTunnel_error_counterexample :
    (StartTunnel demoEnv (StartTunnel demoEnv demoState 1).2 1).1 =
      some "tunnel is already running" ∧
    (StartTunnel demoEnv (StartTunnel demoEnv demoState 1).2 1).2 =
      (StartTunnel demoEnv demoState 1).2 ∧
    (lookupActive (StartTunnel demoEnv demoState 1).2 1).isSome = true ∧
    tunnelsGetByID (StartTunnel demoEnv demoState 1).2.tunnels 1 =
      some { demoTunnel with status := "active" } ∧
    (StartTunnel demoEnv demoState 1).2.logs =
      [{ tunnelID := 1, eventType := "start" }] := by
  refine ⟨by decide, by decide, by decide, by decide, by decide⟩

/-- Witness for C2 (amended): a failing SSH dial on `demoTunnel` sets its
status to `error` and appends an `error` event; a successful start leaves
a registered handle. -/
theorem startTunnel_effects_witness :
    tunnelsGetByID (StartTunnel demoEnvDialFail demoState 1).2.tunnels 1 =
      some { demoTunnel with status := "error" } ∧
    (StartTunnel demoEnvDialFail demoState 1).2.logs =
      demoState.logs ++ [{ tunnelID := 1, eventType := "error" }] ∧
    (lookupActive (StartTunnel demoEnv demoState 1).2 1).isSome = true := by
  refine ⟨?_, ?_, ?_⟩
  · exact (startTunnel_effects.2.1 demoEnvDialFail demoState 1 demoTunnel
      (by decide) (by decide) (by decide) (by decide)).2.1
  · exact (startTunnel_effects.2.1 demoEnvDialFail demoState 1 demoTunnel
      (by decide) (by decide) (by decide) (by decide)).2.2.1
  · exact (startTunnel_effects.1 demoEnv demoState 1 (by decide)).1

theorem validateTunnelConfig_ok_fields {t t1 : Tunnel}
    (h : validateTunnelConfig t = .ok t1) :
    t1.id = t.id ∧ t1.localAddress = t.localAddress ∧
    t1.localPort = t.localPort ∧ t1.type = t.type ∧ t1.hostID = t.hostID ∧
    t1.remotePort = t.remotePort ∧ t1.deleted = t.deleted := by
  unfold validateTunnelConfig at h
  split at h
  · cases h
  split at h
  · cases h
  split at h
  · cases h
  split at h
  · split at h
    · cases h
    split at h
    · cases h
    rw [Except.ok.injEq] at h
    subst h
    exact ⟨rfl, rfl, rfl, rfl, rfl, rfl, rfl⟩
  split at h
  · split at h
    · cases h
    split at h
    · rw [Except.ok.injEq] at h
      subst h
      exact ⟨rfl, rfl, rfl, rfl, rfl, rfl, rfl⟩
    · rw [Except.ok.injEq] at h
      subst h
      exact ⟨rfl, rfl, rfl, rfl, rfl, rfl, rfl⟩
  split at h
  · rw [Except.ok.injEq] at h
    subst h
    exact ⟨rfl, rfl, rfl, rfl, rfl, rfl, rfl⟩
  · cases h

theorem tunnelsCreate_ok {ts : List Tunnel} {t : Tunnel} {ts1 : List Tunnel}
    {tc : Tunnel} (h : tunnelsCreate ts t = .ok (ts1, tc)) :
    ts1 = ts ++ [tc] ∧ tc.id ≠ 0 ∧ (∀ ex ∈ ts, ex.id ≠ tc.id) ∧
    (t.id ≠ 0 → tc.id = t.id) ∧
    tc.hostID = t.hostID ∧ tc.type = t.type ∧
    tc.localAddress = t.localAddress ∧ tc.localPort = t.localPort ∧
    tc.remoteAddress = t.remoteAddress ∧ tc.remotePort = t.remotePort ∧
    tc.status = t.status ∧ tc.deleted = t.deleted := by
  unfold tunnelsCreate at h
  by_cases h0 : t.id = 0
  · simp only [if_pos h0] at h
    split at h
    · cases h
    · next hany =>
        rw [Except.ok.injEq, Prod.mk.injEq] at h
        obtain ⟨h1, h2⟩ := h
        subst h2
        refine ⟨h1.symm, by simp [freshID], ?_, fun hx => absurd h0 hx,
          rfl, rfl, rfl, rfl, rfl, rfl, rfl, rfl⟩
        intro ex hmem
        have hP : (ts.any fun ex => ex.id == freshID ts) = false :=
          Bool.eq_false_iff.mpr hany
        have := List.any_eq_false.mp hP ex hmem
        simpa using this
  · simp only [if_neg h0] at h
    split at h
    · cases h
    · next hany =>
        rw [Except.ok.injEq, Prod.mk.injEq] at h
        obtain ⟨h1, h2⟩ := h
        subst h2
        refine ⟨h1.symm, h0, ?_, fun _ => rfl,
          rfl, rfl, rfl, rfl, rfl, rfl, rfl, rfl⟩
        intro ex hmem
        have hP : (ts.any fun ex => ex.id == t.id) = false :=
          Bool.eq_false_iff.mpr hany
        have := List.any_eq_false.mp hP ex hmem
        simpa using this

theorem checkPort_none {netL : String → Nat → Bool} {ts : List Tunnel}
    {t : Tunnel} (h : checkPortAvailability netL ts t = none) :
    ∀ ex ∈ ts, ex.deleted = false → ex.id ≠ t.id →
      ¬(ex.localAddress = t.localAddress ∧ ex.localPort = t.localPort) ∧
      (t.type = "remote_forward" → ex.type = "remote_forward" →
        ¬(ex.hostID = t.hostID ∧ ex.remoteAddress = t.remoteAddress ∧
          ex.remotePort = t.remotePort)) := by
  unfold checkPortAvailability at h
  split at h
  · cases h
  · split at h
    · cases h
    · next hany =>
        intro ex hmem hdel hid
        have hx : (!ex.deleted && !(ex.id == t.id) &&
            ((ex.localPort == t.localPort && ex.localAddress == t.localAddress) ||
             (t.type == "remote_forward" && ex.type == "remote_forward" &&
              ex.hostID == t.hostID && ex.remotePort == t.remotePort &&
              ex.remoteAddress == t.remoteAddress))) = false := by
          by_contra hc
          exact hany (List.any_eq_true.mpr ⟨ex, hmem,
            eq_true_of_ne_false hc⟩)
        rw [hdel] at hx
        have hbe : (ex.id == t.id) = false := beq_eq_false_iff_ne.mpr hid
        rw [hbe] at hx
        simp only [Bool.not_false, Bool.true_and] at hx
        rw [Bool.or_eq_false_iff] at hx
        obtain ⟨hA, hB⟩ := hx
        constructor
        · rintro ⟨e1, e2⟩
          simp [e1, e2] at hA
        · rintro hty1 hty2 ⟨q1, q2, q3⟩
          simp [hty1, hty2, q1, q2, q3] at hB

theorem createTunnel_preserves {netL : String → Nat → Bool}
    {st st' : EngineState} {t tc : Tunnel}
    (hids : IdsDistinct st.tunnels) (huniq : TunnelUniqueness st.tunnels)
    (h : CreateTunnel netL st t = .ok (st', tc)) :
    TunnelUniqueness st'.tunnels ∧ IdsDistinct st'.tunnels := by
  unfold CreateTunnel at h
  split at h
  · cases h
  · next t1 hval =>
      split at h
      · cases h
      · next hcheck =>
          split at h
          · cases h
          · next ts1 tc0 hcr =>
              rw [Except.ok.injEq, Prod.mk.injEq] at h
              obtain ⟨hst, htc⟩ := h
              subst htc
              obtain ⟨hts1, hid0, hnotin, hidkeep, hhostID, htype, hladdr,
                hlport, hraddr, hrport, hstatus, hdel⟩ := tunnelsCreate_ok hcr
              obtain ⟨hv1, hv2, hv3, hv4, hv5, hv6, hv7⟩ :=
                validateTunnelConfig_ok_fields hval
              have hconf := checkPort_none hcheck
              have hidne : ∀ ex ∈ st.tunnels, ex.id ≠ t1.id := by
                intro ex hmem
                by_cases hz : t1.id = 0
                · rw [hz]; exact hids.2 ex hmem
                · have h5 : tc0.id = t1.id := hidkeep hz
                  rw [← h5]
                  exact hnotin ex hmem
              have hcross : ∀ a ∈ st.tunnels,
                  (a.deleted = false → tc0.deleted = false →
                    ¬(a.localAddress = tc0.localAddress ∧
                      a.localPort = tc0.localPort)) ∧
                  (a.deleted = false → tc0.deleted = false →
                    a.type = "remote_forward" → tc0.type = "remote_forward" →
                    ¬(a.hostID = tc0.hostID ∧
                      a.remoteAddress = tc0.remoteAddress ∧
                      a.remotePort = tc0.remotePort)) := by
                intro a hmem
                constructor
                · intro hadel _ hcontra
                  exact (hconf a hmem hadel (hidne a hmem)).1
                    ⟨hcontra.1.trans hladdr, hcontra.2.trans hlport⟩
                · intro hadel _ haty hty hcontra
                  exact (hconf a hmem hadel (hidne a hmem)).2
                    (htype.symm.trans hty) haty
                    ⟨hcontra.1.trans hhostID, hcontra.2.1.trans hraddr,
                     hcontra.2.2.trans hrport⟩
              constructor
              · show TunnelUniqueness st'.tunnels
                rw [← hst]
                show TunnelUniqueness ts1
                rw [hts1]
                unfold TunnelUniqueness
                rw [List.pairwise_append]
                refine ⟨huniq, List.pairwise_singleton _ _, ?_⟩
                intro a hmem b hb
                rw [List.mem_singleton] at hb
                subst hb
                exact hcross a hmem
              · show IdsDistinct st'.tunnels
                rw [← hst]
                show IdsDistinct ts1
                rw [hts1]
                constructor
                · rw [List.pairwise_append]
                  refine ⟨hids.1, List.pairwise_singleton _ _, ?_⟩
                  intro a hmem b hb
                  rw [List.mem_singleton] at hb
                  subst hb
                  exact hnotin a hmem
                · intro x hx
                  rw [List.mem_append, List.mem_singleton] at hx
                  rcases hx with hx | hx
                  · exact hids.2 x hx
                  · subst hx; exact hid0

theorem createMulti_preserves (svcs : List LocalServiceMapping)
    (netL : String → Nat → Bool) (st : EngineState) (hostID : Nat)
    (hids : IdsDistinct st.tunnels) (huniq : TunnelUniqueness st.tunnels) :
    TunnelUniqueness (CreateMultipleLocalForwards netL st hostID svcs).1.tunnels ∧
    IdsDistinct (CreateMultipleLocalForwards netL st hostID svcs).1.tunnels := by
  induction svcs generalizing st with
  | nil => exact ⟨huniq, hids⟩
  | cons svc rest ih =>
      unfold CreateMultipleLocalForwards
      split
      · exact ih st hids huniq
      · next st1 tc hc =>
          obtain ⟨h1, h2⟩ := createTunnel_preserves hids huniq hc
          exact ih st1 h2 h1

theorem createDyn_preserves {netL : String → Nat → Bool} {st st' : EngineState}
    {hostID : Nat} {name description : String} {autoStart : Bool} {tc : Tunnel}
    (hids : IdsDistinct st.tunnels) (huniq : TunnelUniqueness st.tunnels)
    (h : CreateDynamicSOCKS5Tunnel netL st hostID name description autoStart =
      .ok (st', tc)) :
    TunnelUniqueness st'.tunnels ∧ IdsDistinct st'.tunnels := by
  unfold CreateDynamicSOCKS5Tunnel at h
  split at h
  · cases h
  · exact createTunnel_preserves hids huniq h

/-- C5 (amended): `create`, `createMultipleLocalForwards` and
`createDynamicTunnel` preserve the uniqueness invariant (their
`checkPortAvailability` rejects any conflicting record); `update` runs no
such check and can break it, as the accompanying concrete run shows. -/
theorem create_ops_preserve_uniqueness :
    (∀ (netL : String → Nat → Bool) (st st' : EngineState) (t tc : Tunnel),
      IdsDistinct st.tunnels → TunnelUniqueness st.tunnels →
      CreateTunnel netL st t = .ok (st', tc) →
      TunnelUniqueness st'.tunnels ∧ IdsDistinct st'.tunnels) ∧
    (∀ (svcs : List LocalServiceMapping) (netL : String → Nat → Bool)
      (st : EngineState) (hostID : Nat),
      IdsDistinct st.tunnels → TunnelUniqueness st.tunnels →
      TunnelUniqueness
        (CreateMultipleLocalForwards netL st hostID svcs).1.tunnels) ∧
    (∀ (netL : String → Nat → Bool) (st st' : EngineState) (hostID : Nat)
      (name description : String) (autoStart : Bool) (tc : Tunnel),
      IdsDistinct st.tunnels → TunnelUniqueness st.tunnels →
      CreateDynamicSOCKS5Tunnel netL st hostID name description autoStart =
        .ok (st', tc) →
      TunnelUniqueness st'.tunnels) :=
  ⟨fun _ _ _ _ _ hids huniq h => createTunnel_preserves hids huniq h,
   fun svcs netL st hostID hids huniq =>
     (createMulti_preserves svcs netL st hostID hids huniq).1,
   fun _ _ _ _ _ _ _ _ hids huniq h => (createDyn_preserves hids huniq h).1⟩

/-- Counterexample to C5: `UpdateTunnel` revalidates but never re-checks
port conflicts, so updating tunnel 2 onto tunnel 1's
{local address, local port} succeeds and violates the uniqueness
invariant. -/
theorem updateTunnel_uniqueness_counterexample :
    TunnelUniqueness demoStatePair.tunnels ∧
    (UpdateTunnel demoEnv demoStatePair
      { demoTunnelB with localPort := 9999 }).1 = none ∧
    ¬ TunnelUniqueness (UpdateTunnel demoEnv demoStatePair
      { demoTunnelB with localPort := 9999 }).2.tunnels := by
  refine ⟨?_, by decide, ?_⟩
  · unfold TunnelUniqueness demoStatePair
    refine List.Pairwise.cons ?_ (List.pairwise_singleton _ _)
    intro b hb
    rw [List.mem_singleton] at hb
    subst hb
    constructor
    · intro _ _ hc
      exact absurd hc.2 (by decide)
    · intro _ _ hty _
      exact absurd hty (by decide)
  · intro hcontra
    have h2 : (UpdateTunnel demoEnv demoStatePair
        { demoTunnelB with localPort := 9999 }).2.tunnels =
        [demoTunnel, { demoTunnelB with localPort := 9999 }] := by decide
    unfold TunnelUniqueness at hcontra
    rw [h2] at hcontra
    have h3 := (List.pairwise_cons.mp hcontra).1 _ (List.mem_singleton.mpr rfl)
    exact h3.1 rfl rfl ⟨rfl, rfl⟩

/-- Witness for C5 (amended): creating `demoTunnel` in the empty store
preserves the invariant. -/
theorem create_ops_preserve_uniqueness_witness :
    TunnelUniqueness [{ demoTunnel with status := "inactive" }] := by
  have h := create_ops_preserve_uniqueness.1 (fun _ _ => true)
    { tunnels := [], activeTunnels := [], logs := [] }
    { tunnels := [{ demoTunnel with status := "inactive" }],
      activeTunnels := [], logs := [] }
    demoTunnel { demoTunnel with status := "inactive" }
    ⟨List.Pairwise.nil, by simp⟩ List.Pairwise.nil (by decide)
  exact h.1

theorem findPortLoop_some_iff (netL : String → Nat → Bool) (addr : String) :
    ∀ (fuel port p : Nat),
      findPortLoop netL addr port fuel = some p ↔
        (port ≤ p ∧ p < port + fuel ∧ netL addr p = true ∧
         ∀ q, port ≤ q → q < p → netL addr q = false) := by
  intro fuel
  induction fuel with
  | zero =>
      intro port p
      simp only [findPortLoop]
      constructor
      · intro h; cases h
      · rintro ⟨h1, h2, -, -⟩; omega
  | succ n ih =>
      intro port p
      simp only [findPortLoop]
      by_cases hb : netL addr port = true
      · rw [if_pos hb]
        constructor
        · intro h
          rw [Option.some.injEq] at h
          subst h
          exact ⟨le_rfl, by omega, hb, fun q hq1 hq2 => by omega⟩
        · rintro ⟨h1, h2, h3, h4⟩
          have : p = port := by
            by_contra hne
            have := h4 port le_rfl (by omega)
            rw [hb] at this
            cases this
          rw [this]
      · rw [if_neg hb]
        rw [ih (port + 1) p]
        have hbf : netL addr port = false := Bool.eq_false_iff.mpr hb
        constructor
        · rintro ⟨h1, h2, h3, h4⟩
          refine ⟨by omega, by omega, h3, ?_⟩
          intro q hq1 hq2
          by_cases hq : q = port
          · rw [hq]; exact hbf
          · exact h4 q (by omega) hq2
        · rintro ⟨h1, h2, h3, h4⟩
          have hpne : p ≠ port := by
            intro hx
            rw [hx, hbf] at h3
            cases h3
          exact ⟨by omega, by omega, h3, fun q hq1 hq2 => h4 q (by omega) hq2⟩

theorem findPortLoop_none_iff (netL : String → Nat → Bool) (addr : String) :
    ∀ (fuel port : Nat),
      findPortLoop netL addr port fuel = none ↔
        ∀ q, port ≤ q → q < port + fuel → netL addr q = false := by
  intro fuel
  induction fuel with
  | zero =>
      intro port
      simp only [findPortLoop]
      constructor
      · intro _ q hq1 hq2; omega
      · intro _; trivial
  | succ n ih =>
      intro port
      simp only [findPortLoop]
      by_cases hb : netL addr port = true
      · rw [if_pos hb]
        constructor
        · intro h; cases h
        · intro h
          have := h port le_rfl (by omega)
          rw [hb] at this
          cases this
      · rw [if_neg hb]
        rw [ih (port + 1)]
        have hbf : netL addr port = false := Bool.eq_false_iff.mpr hb
        constructor
        · intro h q hq1 hq2
          by_cases hq : q = port
          · rw [hq]; exact hbf
          · exact h q (by omega) (by omega)
        · intro h q hq1 hq2
          exact h q (by omega) (by omega)

theorem createTunnel_ok_port {netL : String → Nat → Bool} {st st' : EngineState}
    {t tc : Tunnel} (h : CreateTunnel netL st t = .ok (st', tc)) :
    tc.localPort = t.localPort ∧ tc.type = t.type := by
  unfold CreateTunnel at h
  split at h
  · cases h
  · next t1 hval =>
      split at h
      · cases h
      · split at h
        · cases h
        · next ts1 tc0 hcr =>
            rw [Except.ok.injEq, Prod.mk.injEq] at h
            obtain ⟨-, htc⟩ := h
            subst htc
            obtain ⟨-, -, -, -, -, hty, -, hlp, -, -, -, -⟩ := tunnelsCreate_ok hcr
            obtain ⟨-, -, hv3, hv4, -, -, -⟩ := validateTunnelConfig_ok_fields hval
            exact ⟨hlp.trans hv3, hty.trans hv4⟩

/-- C9: `FindAvailablePort` returns the smallest port in
`[startPort, endPort]` on which the transient bind succeeds (the address
defaulting to `localhost` when blank) and fails exactly when no port in
the range binds; `CreateDynamicSOCKS5Tunnel` scans 1080–1090 on localhost
and only then 8080–8090, so a created tunnel gets local port 1080 when
1080 is free, and local port 8080 when 1080–1090 are all busy but 8080 is
free. -/
theorem findAvailablePort_spec :
    (∀ (netL : String → Nat → Bool) (s e : Nat) (a : String) (p : Nat),
      FindAvailablePort netL s e a = some p ↔
        (s ≤ p ∧ p ≤ e ∧ netL (if a = "" then "localhost" else a) p = true ∧
         ∀ q, s ≤ q → q < p → netL (if a = "" then "localhost" else a) q = false)) ∧
    (∀ (netL : String → Nat → Bool) (s e : Nat) (a : String),
      FindAvailablePort netL s e a = none ↔
        ∀ q, s ≤ q → q ≤ e → netL (if a = "" then "localhost" else a) q = false) ∧
    (∀ (netL : String → Nat → Bool) (st st' : EngineState) (hostID : Nat)
      (name description : String) (autoStart : Bool) (tc : Tunnel),
      netL "localhost" 1080 = true →
      CreateDynamicSOCKS5Tunnel netL st hostID name description autoStart =
        .ok (st', tc) →
      tc.localPort = 1080 ∧ tc.type = "dynamic") ∧
    (∀ (netL : String → Nat → Bool) (st st' : EngineState) (hostID : Nat)
      (name description : String) (autoStart : Bool) (tc : Tunnel),
      (∀ q, 1080 ≤ q → q ≤ 1090 → netL "localhost" q = false) →
      netL "localhost" 8080 = true →
      CreateDynamicSOCKS5Tunnel netL st hostID name description autoStart =
        .ok (st', tc) →
      tc.localPort = 8080 ∧ tc.type = "dynamic") := by
  have hsome : ∀ (netL : String → Nat → Bool) (s e : Nat) (a : String) (p : Nat),
      FindAvailablePort netL s e a = some p ↔
        (s ≤ p ∧ p ≤ e ∧ netL (if a = "" then "localhost" else a) p = true ∧
         ∀ q, s ≤ q → q < p → netL (if a = "" then "localhost" else a) q = false) := by
    intro netL s e a p
    unfold FindAvailablePort
    rw [findPortLoop_some_iff]
    constructor
    · rintro ⟨h1, h2, h3, h4⟩; exact ⟨h1, by omega, h3, h4⟩
    · rintro ⟨h1, h2, h3, h4⟩; exact ⟨h1, by omega, h3, h4⟩
  have hnone : ∀ (netL : String → Nat → Bool) (s e : Nat) (a : String),
      FindAvailablePort netL s e a = none ↔
        ∀ q, s ≤ q → q ≤ e → netL (if a = "" then "localhost" else a) q = false := by
    intro netL s e a
    unfold FindAvailablePort
    rw [findPortLoop_none_iff]
    constructor
    · intro h q hq1 hq2; exact h q hq1 (by omega)
    · intro h q hq1 hq2; exact h q hq1 (by omega)
  refine ⟨hsome, hnone, ?_, ?_⟩
  · intro netL st st' hostID name description autoStart tc h1080 hok
    unfold CreateDynamicSOCKS5Tunnel at hok
    split at hok
    · cases hok
    · next p hp =>
        have hp1080 : p = 1080 := by
          cases hf : FindAvailablePort netL 1080 1090 "localhost" with
          | none =>
              have := (hnone netL 1080 1090 "localhost").mp hf 1080 le_rfl
                (by omega)
              simp at this
              rw [this] at h1080
              cases h1080
          | some p0 =>
              rw [hf, Option.some.injEq] at hp
              subst hp
              obtain ⟨ha, hb, hc, hd⟩ := (hsome netL 1080 1090 "localhost" p0).mp hf
              by_contra hne
              have := hd 1080 le_rfl (by omega)
              simp at this
              rw [this] at h1080
              cases h1080
        subst hp1080
        obtain ⟨hport, hty⟩ := createTunnel_ok_port hok
        exact ⟨hport, hty⟩
  · intro netL st st' hostID name description autoStart tc hbusy h8080 hok
    unfold CreateDynamicSOCKS5Tunnel at hok
    split at hok
    · cases hok
    · next p hp =>
        have hf1 : FindAvailablePort netL 1080 1090 "localhost" = none := by
          rw [hnone]
          intro q hq1 hq2
          simpa using hbusy q hq1 hq2
        rw [hf1] at hp
        have hp8080 : p = 8080 := by
          obtain ⟨ha, hb, hc, hd⟩ :=
            (hsome netL 8080 8090 "localhost" p).mp hp
          by_contra hne
          have := hd 8080 le_rfl (by omega)
          simp at this
          rw [this] at h8080
          cases h8080
        subst hp8080
        exact createTunnel_ok_port hok

/-- Witness for C9: with only port 2000 free, `FindAvailablePort 2000 2010`
returns 2000; with 1080–1090 busy and everything else free,
`CreateDynamicSOCKS5Tunnel` creates the tunnel on port 8080. -/
theorem findAvailablePort_spec_witness :
    FindAvailablePort (fun _ p => p == 2000) 2000 2010 "" = some 2000 ∧
    (CreateDynamicSOCKS5Tunnel (fun _ p => !(1080 ≤ p && p ≤ 1090))
      { tunnels := [], activeTunnels := [], logs := [] } 1 "s5" "" false).map
      (fun r => (r.2.localPort, r.2.type)) = .ok (8080, "dynamic") := by
  constructor
  · rw [findAvailablePort_spec.1]
    refine ⟨le_rfl, by omega, by decide, ?_⟩
    intro q hq1 hq2
    omega
  · decide

theorem filterMap_eq_map_of_forall_some {α β : Type} {g : α → Option β}
    {f : α → β} : ∀ {l : List α}, (∀ x ∈ l, g x = some (f x)) →
      l.filterMap g = l.map f := by
  intro l
  induction l with
  | nil => intro _; rfl
  | cons a t ih =>
      intro h
      rw [List.filterMap_cons, h a (by simp), List.map_cons,
        ih (fun x hx => h x (by simp [hx]))]

theorem getActiveSocks5_empty_iff (ts : List Tunnel) :
    GetActiveSocks5Tunnels ts = [] ↔
      ∀ t ∈ ts, ¬(t.deleted = false ∧ t.type = "dynamic" ∧
        t.status = "active") := by
  unfold GetActiveSocks5Tunnels
  constructor
  · intro h t hmem hc
    have hlen := List.length_insertionSort
      (fun a b : Tunnel => a.localPort ≤ b.localPort)
      ((ts.filter (fun t => !t.deleted)).filter
        (fun t => t.type == "dynamic" && t.status == "active"))
    rw [h] at hlen
    have hnil : (ts.filter (fun t => !t.deleted)).filter
        (fun t => t.type == "dynamic" && t.status == "active") = [] :=
      List.length_eq_zero.mp hlen.symm
    have hm : t ∈ (ts.filter (fun t => !t.deleted)).filter
        (fun t => t.type == "dynamic" && t.status == "active") := by
      rw [List.mem_filter, List.mem_filter]
      refine ⟨⟨hmem, by simp [hc.1]⟩, by simp [hc.2.1, hc.2.2]⟩
    rw [hnil] at hm
    cases hm
  · intro h
    have hnil : (ts.filter (fun t => !t.deleted)).filter
        (fun t => t.type == "dynamic" && t.status == "active") = [] := by
      rw [List.filter_eq_nil_iff]
      intro t hmem
      rw [List.mem_filter] at hmem
      intro hc
      simp only [Bool.and_eq_true, beq_iff_eq] at hc
      exact h t hmem.1 ⟨by simpa using hmem.2, hc.1, hc.2⟩
    rw [hnil]
    rfl

/-- C7: Clash config generation fails with the distinct
no-active-SOCKS5-tunnels error exactly when no persisted tunnel is a
non-deleted `dynamic` tunnel with status `active`; the active set is
sorted by ascending local port and is a permutation of exactly those
tunnels; when every such tunnel's host resolves, the proxies list is one
`socks5` entry per tunnel in that order, named
`drilling-{sanitized host name}-{local port}` with the tunnel's local
address and port (`clashProxyFor`), and the `Proxy` select group's member
list is `Auto, DIRECT` (with `LoadBalance` inserted after `Auto` when a
second proxy exists) followed by all proxy names. -/
theorem clash_config_spec :
    (∀ (ts : List Tunnel) (hosts : List Host),
      GenerateClashConfig ts hosts = .error "no active SOCKS5 tunnels found" ↔
        ∀ t ∈ ts, ¬(t.deleted = false ∧ t.type = "dynamic" ∧
          t.status = "active")) ∧
    (∀ ts : List Tunnel,
      List.Pairwise (fun a b : Tunnel => a.localPort ≤ b.localPort)
        (GetActiveSocks5Tunnels ts)) ∧
    (∀ ts : List Tunnel,
      (GetActiveSocks5Tunnels ts).Perm
        ((ts.filter (fun t => !t.deleted)).filter
          (fun t => t.type == "dynamic" && t.status == "active"))) ∧
    (∀ (ts : List Tunnel) (hosts : List Host) (hostOf : Tunnel → Host)
      (cfg : ClashConfig),
      (∀ t ∈ GetActiveSocks5Tunnels ts,
        hostsFind hosts t.hostID = some (hostOf t)) →
      GenerateClashConfig ts hosts = .ok cfg →
      cfg.proxies = (GetActiveSocks5Tunnels ts).map
        (fun t => clashProxyFor (hostOf t) t) ∧
      (∃ g ∈ cfg.proxyGroups, g.name = "Proxy" ∧ g.type = "select") ∧
      (∀ g ∈ cfg.proxyGroups, g.name = "Proxy" →
        g.proxies = (if 2 ≤ cfg.proxies.length then
            ["Auto", "LoadBalance", "DIRECT"] else ["Auto", "DIRECT"]) ++
          cfg.proxies.map (fun p => p.name))) := by
  refine ⟨?_, ?_, ?_, ?_⟩
  · intro ts hosts
    unfold GenerateClashConfig
    by_cases he : (GetActiveSocks5Tunnels ts).isEmpty
    · rw [if_pos he]
      simp only [true_iff, Except.error.injEq]
      exact (getActiveSocks5_empty_iff ts).mp (List.isEmpty_iff.mp he)
    · rw [if_neg he]
      constructor
      · intro h; cases h
      · intro h
        exact absurd (List.isEmpty_iff.mpr
          ((getActiveSocks5_empty_iff ts).mpr h)) he
  · intro ts
    unfold GetActiveSocks5Tunnels
    haveI : IsTotal Tunnel (fun a b => a.localPort ≤ b.localPort) :=
      ⟨fun a b => Nat.le_total _ _⟩
    haveI : IsTrans Tunnel (fun a b => a.localPort ≤ b.localPort) :=
      ⟨fun _ _ _ => Nat.le_trans⟩
    exact List.sorted_insertionSort _ _
  · intro ts
    unfold GetActiveSocks5Tunnels
    exact List.perm_insertionSort _ _
  · intro ts hosts hostOf cfg hh hok
    unfold GenerateClashConfig at hok
    by_cases he : (GetActiveSocks5Tunnels ts).isEmpty
    · rw [if_pos he] at hok; cases hok
    · rw [if_neg he] at hok
      rw [Except.ok.injEq] at hok
      subst hok
      have hmap : (GetActiveSocks5Tunnels ts).filterMap (fun t =>
          (hostsFind hosts t.hostID).map (fun h => clashProxyFor h t)) =
          (GetActiveSocks5Tunnels ts).map
            (fun t => clashProxyFor (hostOf t) t) :=
        filterMap_eq_map_of_forall_some (fun t ht => by rw [hh t ht]; rfl)
      have hne : GetActiveSocks5Tunnels ts ≠ [] := by
        intro hx
        exact he (List.isEmpty_iff.mpr hx)
      have hnz : 0 < ((GetActiveSocks5Tunnels ts).filterMap (fun t =>
          (hostsFind hosts t.hostID).map (fun h => clashProxyFor h t))).length := by
        rw [hmap, List.length_map]
        exact List.length_pos.mpr hne
      have hnempty : ((GetActiveSocks5Tunnels ts).filterMap (fun t =>
          (hostsFind hosts t.hostID).map (fun h =>
            clashProxyFor h t))).isEmpty = false := by
        rw [List.isEmpty_eq_false_iff_exists_mem]
        rcases List.exists_mem_of_length_pos hnz with ⟨x, hx⟩
        exact ⟨x, hx⟩
      refine ⟨hmap, ?_, ?_⟩
      · rw [hnempty]
        dsimp only [Bool.false_eq_true, if_false]
        by_cases hlen : ((GetActiveSocks5Tunnels ts).filterMap (fun t =>
            (hostsFind hosts t.hostID).map (fun h =>
              clashProxyFor h t))).length ≤ 1
        · rw [if_pos hlen]
          exact ⟨_, List.mem_cons_of_mem _ (List.mem_cons_self _ _), rfl, rfl⟩
        · rw [if_neg hlen]
          exact ⟨_, List.mem_cons_of_mem _ (List.mem_cons_self _ _), rfl, rfl⟩
      · intro g hg hname
        rw [hnempty] at hg
        dsimp only [Bool.false_eq_true, if_false] at hg
        by_cases hlen : ((GetActiveSocks5Tunnels ts).filterMap (fun t =>
            (hostsFind hosts t.hostID).map (fun h =>
              clashProxyFor h t))).length ≤ 1
        · rw [if_pos hlen] at hg
          have h2le : ¬ 2 ≤ ((GetActiveSocks5Tunnels ts).filterMap (fun t =>
              (hostsFind hosts t.hostID).map (fun h =>
                clashProxyFor h t))).length := by omega
          rw [if_neg h2le]
          rcases List.mem_cons.mp hg with hg | hg2
          · rw [hg] at hname
            exact absurd hname (show ¬("Auto" : String) = "Proxy" by decide)
          · rcases List.mem_cons.mp hg2 with hg | hg3
            · rw [hg]
            · cases hg3
        · rw [if_neg hlen] at hg
          have h2ge : 2 ≤ ((GetActiveSocks5Tunnels ts).filterMap (fun t =>
              (hostsFind hosts t.hostID).map (fun h =>
                clashProxyFor h t))).length := by omega
          rw [if_pos h2ge]
          rcases List.mem_cons.mp hg with hg | hg2
          · rw [hg] at hname
            exact absurd hname (show ¬("Auto" : String) = "Proxy" by decide)
          · rcases List.mem_cons.mp hg2 with hg | hg3
            · rw [hg]
            · rcases List.mem_cons.mp hg3 with hg | hg4
              · rw [hg] at hname
                exact absurd hname
                  (show ¬("LoadBalance" : String) = "Proxy" by decide)
              · cases hg4

/-- Witness for C7: with no tunnels the exporter fails with the distinct
error; with one active dynamic tunnel on `127.0.0.1:1080` for host `home`
the emitted proxies are exactly `drilling-home-1080` and the `Proxy`
select group lists `Auto, DIRECT, drilling-home-1080`. -/
theorem clash_config_spec_witness :
    GenerateClashConfig ([] : List Tunnel) [] =
      .error "no active SOCKS5 tunnels found" ∧
    (GenerateClashConfig [clashDemoTunnel] [clashDemoHost]).map
      (fun cfg => (cfg.proxies, cfg.proxyGroups.filterMap (fun g =>
        if g.name = "Proxy" then some g.proxies else none))) =
      .ok ([{ name := "drilling-home-1080", type := "socks5",
              server := "127.0.0.1", port := 1080 }],
           [["Auto", "DIRECT", "drilling-home-1080"]]) := by
  constructor
  · exact (clash_config_spec.1 [] []).mpr (by simp)
  · decide

end Drilling
